/-
Verification of the AeroEvap aerodynamic mass-transfer evaporation solver.

This file gives a shallow embedding of the two Python implementations in the
repository:

  * `aeroevap/aero.py`, `Aero.single_calc`  (the packaged implementation), and
  * `aero/aero.py`, `aero`                  (the legacy implementation),

and proves or refutes the frozen specification claims about them.

Modelling conventions (exact real/complex arithmetic, not IEEE-754 floats):

  * A Python numeric value is modelled as `V := Option ℂ`.  `none` stands for
    a non-finite float (NaN or an infinity produced by a division by zero);
    `some c` is a finite real or complex value.  This conflates NaN with
    infinities: the only predicate the source applies to candidate
    coefficients is `cmath.isfinite`, which is false for both, and
    `np.isreal`, whose NaN behaviour is outcome-equivalent (see `isrealV`).
  * `np.divide` never raises: division by an exact zero yields a non-finite
    value, modelled by `npDiv` returning `none`.
  * The Python `/` operator on scalars raises `ZeroDivisionError` on an
    exact-zero denominator (even for a NaN numerator); it is modelled by the
    fallible `pyDiv`.  Divisions whose denominator is a nonzero numeric
    literal (`/2`, `/100`, `/g`, `/0.0001`) can never raise and are written
    with `npDiv`; the two agree whenever the denominator is not `some 0`.
  * `cmath.log` raises `ValueError` exactly at `0` (`clogE`); `cmath.exp`
    never raises in exact arithmetic (`cexpV`; float overflow is outside the
    model); `cmath.atan` raises exactly at `±i` (`catanE`); `math.exp` and
    `math.log` raise `TypeError` on a value with a nonzero imaginary part and
    `math.log` additionally raises `ValueError` on a non-positive real
    (`mexpE`, `mlogE`); `np.emath.log` never raises, returning a non-finite
    value at `0` and a complex logarithm elsewhere (`emathLog`).
  * Python's `**` on complex (and on negative-base float) operands is the
    principal-branch complex power, modelled by `cpowV` via `Complex.cpow`;
    numpy's elementwise `**` instead produces NaN for a negative real base
    with fractional exponent, modelled by `npPowQ`.
  * `x**2` on a scalar equals exact squaring and is written `vmul x x`.
-/
import Mathlib

noncomputable section

namespace AeroEvap

open scoped Classical

/-- A Python numeric scalar: `none` is a non-finite value (NaN or ±inf),
`some c` a finite real or complex value. -/
abbrev V := Option ℂ

/-- Embed a real literal/expression as a Python scalar. -/
def rv (x : ℝ) : V := some (x : ℂ)

/-- The NaN result value. -/
def vnan : V := none

/-- Addition with NaN propagation. -/
def vadd : V → V → V
  | some x, some y => some (x + y)
  | _, _ => none

/-- Subtraction with NaN propagation. -/
def vsub : V → V → V
  | some x, some y => some (x - y)
  | _, _ => none

/-- Multiplication with NaN propagation. -/
def vmul : V → V → V
  | some x, some y => some (x * y)
  | _, _ => none

/-- `np.divide`: division by an exact zero produces a non-finite value and
never raises. -/
def npDiv : V → V → V
  | some x, some y => if y = 0 then none else some (x / y)
  | _, _ => none

/-- Python-level exceptions that can escape an arithmetic expression. -/
inductive PyErr where
  | zeroDiv   -- ZeroDivisionError
  | domain    -- ValueError (math domain error)
  | typeErr   -- TypeError (math.* applied to a complex value)
  deriving DecidableEq, Repr

/-- The Python scalar `/` operator: raises `ZeroDivisionError` on an
exact-zero denominator, propagates non-finite values otherwise. -/
def pyDiv : V → V → Except PyErr V
  | _, none => .ok none
  | x, some y => if y = 0 then .error .zeroDiv else .ok (x.map (· / y))

/-- `cmath.exp`: total in exact arithmetic (no float overflow in the model). -/
def cexpV : V → V
  | some x => some (Complex.exp x)
  | none => none

/-- Principal-branch complex power with a real literal exponent: Python `**`
for complex operands and for a float base (where a negative base promotes the
result to complex). -/
def cpowV : V → ℝ → V
  | some x, e => some (x ^ (e : ℂ))
  | none, _ => none

/-- numpy elementwise `**` on a real scalar: a negative real base with a
fractional exponent yields NaN instead of a complex value. -/
def npPowQ : V → ℝ → V
  | some x, e => if x.im = 0 ∧ x.re < 0 then none else some (x ^ (e : ℂ))
  | none, _ => none

/-- `cmath.log`: raises `ValueError` exactly at `0`. -/
def clogE : V → Except PyErr V
  | some x => if x = 0 then .error .domain else .ok (some (Complex.log x))
  | none => .ok none

/-- `np.emath.log`: never raises; non-finite at `0`, complex logarithm
elsewhere. -/
def emathLog : V → V
  | some x => if x = 0 then none else some (Complex.log x)
  | none => none

/-- `math.exp`: raises `TypeError` on a value with nonzero imaginary part
(the model's rendering of "not a float"); otherwise the real exponential. -/
def mexpE : V → Except PyErr V
  | some x => if x.im = 0 then .ok (some ((Real.exp x.re : ℝ) : ℂ)) else .error .typeErr
  | none => .ok none

/-- `math.log`: raises `TypeError` on a complex value and `ValueError` on a
non-positive real; otherwise the real logarithm. -/
def mlogE : V → Except PyErr V
  | some x =>
      if x.im = 0 then
        if 0 < x.re then .ok (some ((Real.log x.re : ℝ) : ℂ)) else .error .domain
      else .error .typeErr
  | none => .ok none

/-- The principal branch of the complex arctangent, as computed by
`cmath.atan`. -/
def catanF (z : ℂ) : ℂ :=
  Complex.I / 2 * (Complex.log (1 - Complex.I * z) - Complex.log (1 + Complex.I * z))

/-- `cmath.atan`: raises `ValueError` exactly at the branch poles `±i`. -/
def catanE : V → Except PyErr V
  | some x =>
      if x = Complex.I ∨ x = -Complex.I then .error .domain else .ok (some (catanF x))
  | none => .ok none

/-- `np.isreal`: true when the imaginary part is zero.  For a non-finite
value the model answers `False`; numpy would answer `True` for a real NaN and
`False` for a complex NaN, but both routes give the same candidate (NaN)
because the subsequent sign test on a NaN stability is also false. -/
def isrealV : V → Prop
  | some x => x.im = 0
  | none => False

/-- `cmath.isfinite` (up to the NaN/inf conflation of the model). -/
def isfiniteV : V → Bool
  | some _ => true
  | none => false

/-- `np.real` of a scalar. -/
def realV : V → V
  | some x => some ((x.re : ℝ) : ℂ)
  | none => none

/-- The test `np.real(w) > 0` (false on a non-finite value, as for NaN). -/
def rePos : V → Prop
  | some x => 0 < x.re
  | none => False

/-- The test `np.real(w) < 0` (false on a non-finite value, as for NaN). -/
def reNeg : V → Prop
  | some x => x.re < 0
  | none => False

/-- von Kármán constant (`K=0.41`). -/
def K : ℝ := 0.41

/-- gravity (`g=9.81`). -/
def g : ℝ := 9.81

/-- Charnock constant (`a=0.0123`). -/
def a : ℝ := 0.0123

/-- The meteorological quantities derived once per observation
(`aeroevap/aero.py` lines 161-203 = `aero/aero.py` lines 70-111; the two
prologues are textually identical). -/
structure Consts where
  z : ℝ
  wind : ℝ
  Tap : V
  Tsp : V
  e_air : V
  q_air : V
  e_sat : V
  q_sat : V
  VPD : V
  density : V
  v : V
  Tv : V

/-- The mutable state of the stable/unstable regime iterations. -/
structure SState where
  Sm : V
  St : V
  Sq : V
  u_f : V
  t_fv : V
  q_f : V
  zo : V
  zot : V
  zoq : V
  L : V

/-- The mutable state of the neutral regime iteration (`zo` is re-seeded; the
other two fields carry over from the unstable loop). -/
structure NState where
  u_f : V
  zo : V
  zoq : V

/-- Phase 0, the shared prologue (`aeroevap/aero.py` 161-203 and, textually
identically, `aero/aero.py` 70-111).  The source evaluates
`(1000./pressure)**(0.286)` twice with the same operands; the model evaluates
it once, which raises in exactly the same cases. -/
def prologue (wind pressure T_air T_skin RH sensor_height : ℝ) :
    Except PyErr Consts := do
  let z := sensor_height
  let TaK := T_air + 273.15
  let TsK := T_skin + 273.15
  let pr ← pyDiv (rv 1000) (rv pressure)
  let Tap := vmul (rv TaK) (cpowV pr 0.286)
  let Tsp := vmul (rv TsK) (cpowV pr 0.286)
  let t1 ← pyDiv (rv (17.27 * (TaK - 273.15))) (rv ((TaK - 273.15) + 237.3))
  let x1 ← mexpE t1
  let e_air := vmul (rv (RH / 100)) (vmul (rv 0.6108) x1)
  let q_air ← pyDiv (vmul (rv 0.62) e_air)
      (vsub (rv (pressure / 10)) (vmul (rv 0.38) e_air))
  let t2 ← pyDiv (rv (17.27 * (TsK - 273.15))) (rv ((TsK - 273.15) + 237.3))
  let x2 ← mexpE t2
  let e_sat := vmul (rv 0.6108) x2
  let q_sat ← pyDiv (vmul (rv 0.62) e_sat)
      (vsub (rv (pressure / 10)) (vmul (rv 0.38) e_sat))
  let VPD := vsub e_sat e_air
  let density ← pyDiv (rv (pressure / 10 * 1000))
      (vmul (vmul (rv TaK) (rv 286.9)) (vadd (rv 1) (vmul (rv 0.61) q_air)))
  let v ← pyDiv (rv (4.94e-8 * (TaK - 273.15) + 1.7185e-5)) density
  let Tv := vmul (rv TaK) (vadd (rv 1) (vmul q_air (rv 0.61)))
  pure ⟨z, wind, Tap, Tsp, e_air, q_air, e_sat, q_sat, VPD, density, v, Tv⟩

/-- Stable-regime seeding and pre-iteration, packaged implementation
(`aeroevap/aero.py` 207-231): `q_f` and `L` use `np.divide`. -/
def stableInitP (c : Consts) : Except PyErr SState := do
  let zo := rv 0.0001
  let l1 ← clogE (npDiv (rv c.z) zo)
  let u_f ← pyDiv (vmul (rv K) (vsub (rv c.wind) (rv 0))) (vsub l1 (rv 0))
  let t1 ← pyDiv (vmul zo u_f) c.v
  let zoq := vmul (rv 7.4) (vmul zo (cexpV (vmul (rv (-2.25)) (cpowV t1 0.25))))
  let t2 ← pyDiv (vmul zo u_f) c.v
  let zot := vmul (rv 7.4) (vmul zo (cexpV (vmul (rv (-2.25)) (cpowV t2 0.25))))
  let r2 ← pyDiv (rv c.z) zot
  let l2 ← clogE r2
  let t_fv ← pyDiv (vmul (rv K) (vsub c.Tap c.Tsp)) (vsub l2 (rv 0))
  let r3 ← pyDiv (rv c.z) zoq
  let l3 ← clogE r3
  let q_f := npDiv (vmul (rv K) (vsub c.q_air c.q_sat)) (vsub l3 (rv 0))
  let L := npDiv (vmul c.Tv (vmul u_f u_f)) (vmul (rv K) (vmul (rv g) t_fv))
  pure ⟨rv 0, rv 0, rv 0, u_f, t_fv, q_f, zo, zot, zoq, L⟩

/-- Stable-regime seeding and pre-iteration, legacy implementation
(`aero/aero.py` 115-139): `q_f` and `L` use the raising `/`. -/
def stableInitL (c : Consts) : Except PyErr SState := do
  let zo := rv 0.0001
  let l1 ← clogE (npDiv (rv c.z) zo)
  let u_f ← pyDiv (vmul (rv K) (vsub (rv c.wind) (rv 0))) (vsub l1 (rv 0))
  let t1 ← pyDiv (vmul zo u_f) c.v
  let zoq := vmul (rv 7.4) (vmul zo (cexpV (vmul (rv (-2.25)) (cpowV t1 0.25))))
  let t2 ← pyDiv (vmul zo u_f) c.v
  let zot := vmul (rv 7.4) (vmul zo (cexpV (vmul (rv (-2.25)) (cpowV t2 0.25))))
  let r2 ← pyDiv (rv c.z) zot
  let l2 ← clogE r2
  let t_fv ← pyDiv (vmul (rv K) (vsub c.Tap c.Tsp)) (vsub l2 (rv 0))
  let r3 ← pyDiv (rv c.z) zoq
  let l3 ← clogE r3
  let q_f ← pyDiv (vmul (rv K) (vsub c.q_air c.q_sat)) (vsub l3 (rv 0))
  let L ← pyDiv (vmul c.Tv (vmul u_f u_f)) (vmul (rv K) (vmul (rv g) t_fv))
  pure ⟨rv 0, rv 0, rv 0, u_f, t_fv, q_f, zo, zot, zoq, L⟩

/-- One pass of the stable-regime loop, packaged implementation
(`aeroevap/aero.py` 235-253): all divisions are `np.divide` (or have a
numpy operand); only `cmath.log` can raise.  `zot` is not updated. -/
def stableBodyP (c : Consts) (st : SState) : Except PyErr SState := do
  let l1 ← clogE (npDiv (rv c.z) st.zo)
  let u_f := npDiv (vmul (rv K) (vsub (rv c.wind) st.u_f)) (vsub l1 st.Sm)
  let l2 ← clogE (npDiv (rv c.z) st.zot)
  let t_fv := npDiv (vmul (rv K) (vsub c.Tap c.Tsp)) (vsub l2 st.St)
  let l3 ← clogE (npDiv (rv c.z) st.zoq)
  let q_f := npDiv (vmul (rv K) (vsub c.q_air c.q_sat)) (vsub l3 st.Sq)
  let Sm := npDiv (rv (-5.2 * c.z)) st.L
  let Sq := npDiv (rv (-5.2 * c.z)) st.L
  let zc := npDiv (vmul (rv a) (vmul u_f u_f)) (rv g)
  let zs := npDiv (vmul (rv 0.11) c.v) u_f
  let zo := vadd zc zs
  let zoq := vmul (rv 7.4)
      (vmul zo (cexpV (vmul (rv (-2.25)) (cpowV (npDiv (vmul zo u_f) c.v) 0.25))))
  let L := npDiv (vmul c.Tv (vmul u_f u_f)) (vmul (rv K) (vmul (rv g) t_fv))
  pure { Sm := Sm, St := st.St, Sq := Sq, u_f := u_f, t_fv := t_fv, q_f := q_f,
         zo := zo, zot := st.zot, zoq := zoq, L := L }

/-- One pass of the stable-regime loop, legacy implementation
(`aero/aero.py` 143-161): scalar `/` raises on an exact-zero denominator;
`Sm`/`Sq` keep `np.float64(...)/L` (a numpy division).  `zot` is not
updated. -/
def stableBodyL (c : Consts) (st : SState) : Except PyErr SState := do
  let r1 ← pyDiv (rv c.z) st.zo
  let l1 ← clogE r1
  let u_f ← pyDiv (vmul (rv K) (vsub (rv c.wind) st.u_f)) (vsub l1 st.Sm)
  let l2r ← pyDiv (rv c.z) st.zot
  let l2 ← clogE l2r
  let t_fv ← pyDiv (vmul (rv K) (vsub c.Tap c.Tsp)) (vsub l2 st.St)
  let l3r ← pyDiv (rv c.z) st.zoq
  let l3 ← clogE l3r
  let q_f ← pyDiv (vmul (rv K) (vsub c.q_air c.q_sat)) (vsub l3 st.Sq)
  let Sm := npDiv (rv (-5.2 * c.z)) st.L
  let Sq := npDiv (rv (-5.2 * c.z)) st.L
  let zc ← pyDiv (vmul (rv a) (vmul u_f u_f)) (rv g)
  let zs ← pyDiv (vmul (rv 0.11) c.v) u_f
  let zo := vadd zc zs
  let t3 ← pyDiv (vmul zo u_f) c.v
  let zoq := vmul (rv 7.4) (vmul zo (cexpV (vmul (rv (-2.25)) (cpowV t3 0.25))))
  let L ← pyDiv (vmul c.Tv (vmul u_f u_f)) (vmul (rv K) (vmul (rv g) t_fv))
  pure { Sm := Sm, St := st.St, Sq := Sq, u_f := u_f, t_fv := t_fv, q_f := q_f,
         zo := zo, zot := st.zot, zoq := zoq, L := L }

/-- The second pass of the legacy stable-regime loop.  The first pass turns
`Sm`/`Sq` into numpy scalars (line 151's `np.float64(-5.2*z)/L`), so the
`u_f` and `q_f` divisions (numpy-typed denominators) and the `zc`, `zs`,
`t3` and `L` divisions (numpy `u_f` produced by this pass) no longer raise,
while `z/zo`, `z/zot`, `z/zoq` and the `t_fv` division still operate on
pure-Python complex values assigned during the first pass (or frozen from
the initialization) and keep the raising `/`. -/
def stableBody2L (c : Consts) (st : SState) : Except PyErr SState := do
  let r1 ← pyDiv (rv c.z) st.zo
  let l1 ← clogE r1
  let u_f := npDiv (vmul (rv K) (vsub (rv c.wind) st.u_f)) (vsub l1 st.Sm)
  let l2r ← pyDiv (rv c.z) st.zot
  let l2 ← clogE l2r
  let t_fv ← pyDiv (vmul (rv K) (vsub c.Tap c.Tsp)) (vsub l2 st.St)
  let l3r ← pyDiv (rv c.z) st.zoq
  let l3 ← clogE l3r
  let q_f := npDiv (vmul (rv K) (vsub c.q_air c.q_sat)) (vsub l3 st.Sq)
  let Sm := npDiv (rv (-5.2 * c.z)) st.L
  let Sq := npDiv (rv (-5.2 * c.z)) st.L
  let zc := npDiv (vmul (rv a) (vmul u_f u_f)) (rv g)
  let zs := npDiv (vmul (rv 0.11) c.v) u_f
  let zo := vadd zc zs
  let zoq := vmul (rv 7.4)
      (vmul zo (cexpV (vmul (rv (-2.25)) (cpowV (npDiv (vmul zo u_f) c.v) 0.25))))
  let L := npDiv (vmul c.Tv (vmul u_f u_f)) (vmul (rv K) (vmul (rv g) t_fv))
  pure { Sm := Sm, St := st.St, Sq := Sq, u_f := u_f, t_fv := t_fv, q_f := q_f,
         zo := zo, zot := st.zot, zoq := zoq, L := L }

/-- Passes 3-199 of the legacy stable-regime loop.  From the second pass on
`zo` and `zoq` are numpy scalars as well (`zc` comes from a numpy-typed
division), so only the ratio against the frozen pure-Python-complex `z0t`
and the `t_fv` division (whose denominator stays pure-Python because `St` is
never reassigned) can still raise; every other operation is numpy-typed,
exactly as in the packaged `stableBodyP`. -/
def stableBody3L (c : Consts) (st : SState) : Except PyErr SState := do
  let l1 ← clogE (npDiv (rv c.z) st.zo)
  let u_f := npDiv (vmul (rv K) (vsub (rv c.wind) st.u_f)) (vsub l1 st.Sm)
  let l2r ← pyDiv (rv c.z) st.zot
  let l2 ← clogE l2r
  let t_fv ← pyDiv (vmul (rv K) (vsub c.Tap c.Tsp)) (vsub l2 st.St)
  let l3 ← clogE (npDiv (rv c.z) st.zoq)
  let q_f := npDiv (vmul (rv K) (vsub c.q_air c.q_sat)) (vsub l3 st.Sq)
  let Sm := npDiv (rv (-5.2 * c.z)) st.L
  let Sq := npDiv (rv (-5.2 * c.z)) st.L
  let zc := npDiv (vmul (rv a) (vmul u_f u_f)) (rv g)
  let zs := npDiv (vmul (rv 0.11) c.v) u_f
  let zo := vadd zc zs
  let zoq := vmul (rv 7.4)
      (vmul zo (cexpV (vmul (rv (-2.25)) (cpowV (npDiv (vmul zo u_f) c.v) 0.25))))
  let L := npDiv (vmul c.Tv (vmul u_f u_f)) (vmul (rv K) (vmul (rv g) t_fv))
  pure { Sm := Sm, St := st.St, Sq := Sq, u_f := u_f, t_fv := t_fv, q_f := q_f,
         zo := zo, zot := st.zot, zoq := zoq, L := L }

/-- Unstable-regime seeding and pre-iteration, packaged implementation
(`aeroevap/aero.py` 274-295): real `math.log`/`math.exp`; `L` uses
`np.divide`. -/
def unstableInitP (c : Consts) : Except PyErr SState := do
  let zo := rv 0.0001
  let m1 ← mlogE (npDiv (rv c.z) zo)
  let u_f ← pyDiv (vmul (rv K) (vsub (rv c.wind) (rv 0))) (vsub m1 (rv 0))
  let t1 ← pyDiv (vmul zo u_f) c.v
  let e1 ← mexpE (vmul (rv (-2.25)) (cpowV t1 0.25))
  let zoq := vmul (rv 7.4) (vmul zo e1)
  let t2 ← pyDiv (vmul zo u_f) c.v
  let e2 ← mexpE (vmul (rv (-2.25)) (cpowV t2 0.25))
  let zot := vmul (rv 7.4) (vmul zo e2)
  let r2 ← pyDiv (rv c.z) zot
  let m2 ← mlogE r2
  let t_fv ← pyDiv (vmul (rv K) (vsub c.Tap c.Tsp)) (vsub m2 (rv 0))
  let r3 ← pyDiv (rv c.z) zoq
  let m3 ← mlogE r3
  let q_f ← pyDiv (vmul (rv K) (vsub c.q_air c.q_sat)) (vsub m3 (rv 0))
  let L := npDiv (vmul c.Tv (vmul u_f u_f)) (vmul (rv K) (vmul (rv g) t_fv))
  pure ⟨rv 0, rv 0, rv 0, u_f, t_fv, q_f, zo, zot, zoq, L⟩

/-- Unstable-regime seeding and pre-iteration, legacy implementation
(`aero/aero.py` 176-200): identical to the packaged one except that `L` uses
the raising `/`. -/
def unstableInitL (c : Consts) : Except PyErr SState := do
  let zo := rv 0.0001
  let m1 ← mlogE (npDiv (rv c.z) zo)
  let u_f ← pyDiv (vmul (rv K) (vsub (rv c.wind) (rv 0))) (vsub m1 (rv 0))
  let t1 ← pyDiv (vmul zo u_f) c.v
  let e1 ← mexpE (vmul (rv (-2.25)) (cpowV t1 0.25))
  let zoq := vmul (rv 7.4) (vmul zo e1)
  let t2 ← pyDiv (vmul zo u_f) c.v
  let e2 ← mexpE (vmul (rv (-2.25)) (cpowV t2 0.25))
  let zot := vmul (rv 7.4) (vmul zo e2)
  let r2 ← pyDiv (rv c.z) zot
  let m2 ← mlogE r2
  let t_fv ← pyDiv (vmul (rv K) (vsub c.Tap c.Tsp)) (vsub m2 (rv 0))
  let r3 ← pyDiv (rv c.z) zoq
  let m3 ← mlogE r3
  let q_f ← pyDiv (vmul (rv K) (vsub c.q_air c.q_sat)) (vsub m3 (rv 0))
  let L ← pyDiv (vmul c.Tv (vmul u_f u_f)) (vmul (rv K) (vmul (rv g) t_fv))
  pure ⟨rv 0, rv 0, rv 0, u_f, t_fv, q_f, zo, zot, zoq, L⟩

/-- One pass of the unstable-regime loop, packaged implementation
(`aeroevap/aero.py` 298-318).  A raising operation aborts the pass; the error
value is the partially updated state (assignments made before the raise keep
their new values, matching the `except: pass`-style recovery in the source).
`zot` is not updated (the combinator `tryE` models a raising
sub-expression inside the loop `try` block: on an exception the loop is left
with the given partially-updated fallback state). -/
def tryE {alpha sigma : Type} (x : Except PyErr alpha) (fb : sigma) :
    Except sigma alpha :=
  match x with
  | .error _ => .error fb
  | .ok v => .ok v

def unstableBodyP (c : Consts) (st : SState) : Except SState SState := do
  let l1 ← tryE (clogE (npDiv (rv c.z) st.zo)) st
  let u_f := npDiv (vmul (rv K) (vsub (rv c.wind) st.u_f)) (vsub l1 st.Sm)
  let l2 ← tryE (clogE (npDiv (rv c.z) st.zot)) { st with u_f := u_f }
  let t_fv := npDiv (vmul (rv K) (vsub c.Tap c.Tsp)) (vsub l2 st.St)
  let l3 ← tryE (clogE (npDiv (rv c.z) st.zoq)) { st with u_f := u_f, t_fv := t_fv }
  let q_f := npDiv (vmul (rv K) (vsub c.q_air c.q_sat)) (vsub l3 st.Sq)
  let x := cpowV (vsub (rv 1) (vmul (rv 16) (npDiv (rv c.z) st.L))) 0.25
  let m1 ← tryE (clogE (npDiv (vadd (rv 1) x) (rv 2)))
      { st with u_f := u_f, t_fv := t_fv, q_f := q_f }
  let m2 ← tryE (clogE (npDiv (vadd (rv 1) (vmul x x)) (rv 2)))
      { st with u_f := u_f, t_fv := t_fv, q_f := q_f }
  let m3 ← tryE (catanE x) { st with u_f := u_f, t_fv := t_fv, q_f := q_f }
  let Sm := vadd (vsub (vadd (vmul (rv 2) m1) m2) (vmul (rv 2) m3)) (rv (Real.pi / 2))
  let m4 ← tryE (clogE (npDiv (vadd (rv 1) (vmul x x)) (rv 2)))
      { st with u_f := u_f, t_fv := t_fv, q_f := q_f, Sm := Sm }
  let Sq := vmul (rv 2) m4
  let zc := npDiv (vmul (rv a) (vmul u_f u_f)) (rv g)
  let zs := npDiv (vmul (rv 0.11) c.v) u_f
  let zo := vadd zc zs
  let zoq := vmul (rv 7.4)
      (vmul zo (cexpV (vmul (rv (-2.25)) (cpowV (npDiv (vmul zo u_f) c.v) 0.25))))
  let L := npDiv (vmul c.Tv (vmul u_f u_f)) (vmul (rv K) (vmul (rv g) t_fv))
  pure { Sm := Sm, St := st.St, Sq := Sq, u_f := u_f, t_fv := t_fv, q_f := q_f,
         zo := zo, zot := st.zot, zoq := zoq, L := L }

/-- The first pass of the packaged unstable-regime loop.  On this pass `L`
is the real `np.float64` produced by line 295's `np.divide` of real floats,
so line 306's `x=(1-16*(z/L))**.25` is a numpy float power, which yields NaN
for a negative base instead of the principal complex root that every later
pass computes (from the second pass on `L` is the `np.complex128` assigned
at line 318, because `u_f` and `t_fv` pass through `cmath.log`-typed
divisions).  All other operations carry the same dtypes as in
`unstableBodyP`. -/
def unstableBody1P (c : Consts) (st : SState) : Except SState SState := do
  let l1 ← tryE (clogE (npDiv (rv c.z) st.zo)) st
  let u_f := npDiv (vmul (rv K) (vsub (rv c.wind) st.u_f)) (vsub l1 st.Sm)
  let l2 ← tryE (clogE (npDiv (rv c.z) st.zot)) { st with u_f := u_f }
  let t_fv := npDiv (vmul (rv K) (vsub c.Tap c.Tsp)) (vsub l2 st.St)
  let l3 ← tryE (clogE (npDiv (rv c.z) st.zoq)) { st with u_f := u_f, t_fv := t_fv }
  let q_f := npDiv (vmul (rv K) (vsub c.q_air c.q_sat)) (vsub l3 st.Sq)
  let x := npPowQ (vsub (rv 1) (vmul (rv 16) (npDiv (rv c.z) st.L))) 0.25
  let m1 ← tryE (clogE (npDiv (vadd (rv 1) x) (rv 2)))
      { st with u_f := u_f, t_fv := t_fv, q_f := q_f }
  let m2 ← tryE (clogE (npDiv (vadd (rv 1) (vmul x x)) (rv 2)))
      { st with u_f := u_f, t_fv := t_fv, q_f := q_f }
  let m3 ← tryE (catanE x) { st with u_f := u_f, t_fv := t_fv, q_f := q_f }
  let Sm := vadd (vsub (vadd (vmul (rv 2) m1) m2) (vmul (rv 2) m3)) (rv (Real.pi / 2))
  let m4 ← tryE (clogE (npDiv (vadd (rv 1) (vmul x x)) (rv 2)))
      { st with u_f := u_f, t_fv := t_fv, q_f := q_f, Sm := Sm }
  let Sq := vmul (rv 2) m4
  let zc := npDiv (vmul (rv a) (vmul u_f u_f)) (rv g)
  let zs := npDiv (vmul (rv 0.11) c.v) u_f
  let zo := vadd zc zs
  let zoq := vmul (rv 7.4)
      (vmul zo (cexpV (vmul (rv (-2.25)) (cpowV (npDiv (vmul zo u_f) c.v) 0.25))))
  let L := npDiv (vmul c.Tv (vmul u_f u_f)) (vmul (rv K) (vmul (rv g) t_fv))
  pure { Sm := Sm, St := st.St, Sq := Sq, u_f := u_f, t_fv := t_fv, q_f := q_f,
         zo := zo, zot := st.zot, zoq := zoq, L := L }

/-- One pass of the unstable-regime loop, legacy implementation
(`aero/aero.py` 204-224): scalar `/` raises on exact-zero denominators (the
whole loop stays pure-Python: no numpy call appears in lines 204-224, so
every pass divides with the raising `/` and `**` is Python's complex
principal power); the legacy handler discards the state, so the error
payload is just the exception. -/
def unstableBodyL (c : Consts) (st : SState) : Except PyErr SState := do
  let r1 ← pyDiv (rv c.z) st.zo
  let l1 ← clogE r1
  let u_f ← pyDiv (vmul (rv K) (vsub (rv c.wind) st.u_f)) (vsub l1 st.Sm)
  let r2 ← pyDiv (rv c.z) st.zot
  let l2 ← clogE r2
  let t_fv ← pyDiv (vmul (rv K) (vsub c.Tap c.Tsp)) (vsub l2 st.St)
  let r3 ← pyDiv (rv c.z) st.zoq
  let l3 ← clogE r3
  let q_f ← pyDiv (vmul (rv K) (vsub c.q_air c.q_sat)) (vsub l3 st.Sq)
  let xr ← pyDiv (rv c.z) st.L
  let x := cpowV (vsub (rv 1) (vmul (rv 16) xr)) 0.25
  let m1 ← clogE (npDiv (vadd (rv 1) x) (rv 2))
  let m2 ← clogE (npDiv (vadd (rv 1) (vmul x x)) (rv 2))
  let m3 ← catanE x
  let Sm := vadd (vsub (vadd (vmul (rv 2) m1) m2) (vmul (rv 2) m3)) (rv (Real.pi / 2))
  let m4 ← clogE (npDiv (vadd (rv 1) (vmul x x)) (rv 2))
  let Sq := vmul (rv 2) m4
  let zc ← pyDiv (vmul (rv a) (vmul u_f u_f)) (rv g)
  let zs ← pyDiv (vmul (rv 0.11) c.v) u_f
  let zo := vadd zc zs
  let t3 ← pyDiv (vmul zo u_f) c.v
  let zoq := vmul (rv 7.4) (vmul zo (cexpV (vmul (rv (-2.25)) (cpowV t3 0.25))))
  let L ← pyDiv (vmul c.Tv (vmul u_f u_f)) (vmul (rv K) (vmul (rv g) t_fv))
  pure { Sm := Sm, St := st.St, Sq := Sq, u_f := u_f, t_fv := t_fv, q_f := q_f,
         zo := zo, zot := st.zot, zoq := zoq, L := L }

/-- One pass of the neutral-regime loop, packaged implementation
(`aeroevap/aero.py` 341-348): `np.emath.log` and numpy `**` never raise; only
`math.exp` can (on a complex operand), with the partially updated state as
the error payload. -/
def neutralBodyP (c : Consts) (st : NState) : Except NState NState := do
  let u_f := npDiv (vmul (rv K) (rv c.wind)) (emathLog (npDiv (rv c.z) st.zo))
  let zc := npDiv (vmul (rv a) (vmul u_f u_f)) (rv g)
  let zs := npDiv (vmul (rv 0.11) c.v) u_f
  let zo := vadd zc zs
  let m ← tryE (mexpE (vmul (rv (-2.25)) (npPowQ (npDiv (vmul zo u_f) c.v) 0.25)))
      { u_f := u_f, zo := zo, zoq := st.zoq }
  pure { u_f := u_f, zo := zo, zoq := vmul (rv 7.4) (vmul zo m) }

/-- One pass of the neutral-regime loop, legacy implementation
(`aero/aero.py` 244-252): real `math.log`/`math.exp` and raising `/`. -/
def neutralBodyL (c : Consts) (st : NState) : Except PyErr NState := do
  let r1 ← pyDiv (rv c.z) st.zo
  let m1 ← mlogE r1
  let u_f ← pyDiv (vmul (rv K) (rv c.wind)) m1
  let zc ← pyDiv (vmul (rv a) (vmul u_f u_f)) (rv g)
  let zs ← pyDiv (vmul (rv 0.11) c.v) u_f
  let zo := vadd zc zs
  let t1 ← pyDiv (vmul zo u_f) c.v
  let m2 ← mexpE (vmul (rv (-2.25)) (cpowV t1 0.25))
  pure { u_f := u_f, zo := zo, zoq := vmul (rv 7.4) (vmul zo m2) }

/-- The `for x in range(0, 199)` loop: fold the body over the materialized
range (the loop variable is unused, and in the unstable loop shadowed, by the
bodies). -/
def runLoop199 {σ ε : Type} (f : σ → Except ε σ) (st : σ) : Except ε σ :=
  (List.range 199).foldlM (fun s _x => f s) st

/-- `n` sequential applications of a loop body in the error monad (the tail
of a `for` loop whose first passes run with different dtypes). -/
def runLoopN {σ ε : Type} (n : Nat) (f : σ → Except ε σ) (st : σ) : Except ε σ :=
  (List.range n).foldlM (fun s _x => f s) st

/-- The packaged unstable-regime loop (`aeroevap/aero.py` 297-318): the
first of the 199 passes runs with the real `np.float64` `L` of line 295
(numpy float `**`, NaN on a negative base), the remaining 198 with the
`np.complex128` `L` assigned at line 318 (principal complex `**`). -/
def unstableLoopP (c : Consts) (st : SState) : Except SState SState :=
  unstableBody1P c st >>= runLoopN 198 (unstableBodyP c)

/-- The legacy stable-regime loop (`aero/aero.py` 141-161): pass 1 on the
pure-Python state of the initialization, pass 2 with numpy `Sm`/`Sq`, passes
3-199 with numpy `zo`/`zoq` as well. -/
def stableLoopL (c : Consts) (st : SState) : Except PyErr SState :=
  stableBodyL c st >>= fun s1 => stableBody2L c s1 >>= runLoopN 197 (stableBody3L c)

/-- Stable-regime candidate extraction (`aeroevap/aero.py` 261-269 and,
textually identically, `aero/aero.py` 166-174).  The scalar divisions
`z/zo`, `z/zoq` and `K**2/(...)` are raising `/`; this code runs outside any
`try` block. -/
def ceStableC (c : Consts) (st : SState) : Except PyErr V :=
  if isrealV st.L then
    if rePos (npDiv (rv c.z) st.L) then do
      let r1 ← pyDiv (rv c.z) st.zo
      let l1 ← clogE r1
      let r2 ← pyDiv (rv c.z) st.zoq
      let l2 ← clogE r2
      let q ← pyDiv (rv (K ^ 2)) (vmul (vsub l1 st.Sm) (vsub l2 st.Sq))
      pure (realV q)
    else pure vnan
  else pure vnan

/-- Unstable-regime candidate extraction (`aeroevap/aero.py` 325-332 and
`aero/aero.py` 229-236): as the stable one with the sign test reversed. -/
def ceUnstableC (c : Consts) (st : SState) : Except PyErr V :=
  if isrealV st.L then
    if reNeg (npDiv (rv c.z) st.L) then do
      let r1 ← pyDiv (rv c.z) st.zo
      let l1 ← clogE r1
      let r2 ← pyDiv (rv c.z) st.zoq
      let l2 ← clogE r2
      let q ← pyDiv (rv (K ^ 2)) (vmul (vsub l1 st.Sm) (vsub l2 st.Sq))
      pure (realV q)
    else pure vnan
  else pure vnan

/-- Neutral candidate, packaged implementation (`aeroevap/aero.py` 355-358):
`np.divide` and `np.emath.log`, never raises. -/
def ceNeutralP (c : Consts) (st : NState) : V :=
  npDiv (rv (K ^ 2))
    (vmul (emathLog (npDiv (rv c.z) st.zo)) (emathLog (npDiv (rv c.z) st.zoq)))

/-- Neutral candidate, legacy implementation (`aero/aero.py` 257): raising
`/` and real `math.log`, outside any `try` block. -/
def ceNeutralL (c : Consts) (st : NState) : Except PyErr V := do
  let r1 ← pyDiv (rv c.z) st.zo
  let m1 ← mlogE r1
  let r2 ← pyDiv (rv c.z) st.zoq
  let m2 ← mlogE r2
  pyDiv (rv (K ^ 2)) (vmul m1 m2)

/-- Regime selection, packaged implementation (`aeroevap/aero.py` 362-371):
a priority cascade that also selects the accompanying stability value, with
`0` for the neutral fallback. -/
def assignCe (ceS ceU ceN stabS stabU : V) : V × V :=
  if isfiniteV ceS then (ceS, stabS)
  else if isfiniteV ceU then (ceU, stabU)
  else (ceN, rv 0)

/-- Regime selection, legacy implementation (`aero/aero.py` 261-267): the
same cascade without a stability output. -/
def legacyCascade (ceS ceU ceN : V) : V :=
  if isfiniteV ceS then ceS else if isfiniteV ceU then ceU else ceN

/-- Diagnostic emitted when the packaged stable loop faults. -/
def stableMsg (d : String) : String :=
  "Could not converge on " ++ d ++ " for stable conditions"

/-- Diagnostic emitted when the packaged unstable loop faults. -/
def unstableMsg (d : String) : String :=
  "Could not converge on " ++ d ++ " for unstable conditions"

/-- Diagnostic emitted when the packaged neutral loop faults. -/
def neutralMsg (d : String) : String :=
  "Could not converge on " ++ d ++ " for neutral conditions"

/-- Diagnostic emitted when a legacy loop faults. -/
def legacyMsg (d : String) : String := "Could not converge on " ++ d

/-- Diagnostic emitted by the legacy missing-input branch. -/
def legacyNanMsg (d : String) : String := "One or more variables missing on " ++ d

/-- `Aero.single_calc` on validated (all-finite) inputs: the pipeline of
`aeroevap/aero.py` 161-376.  Returns the Python result (or the uncaught
exception) together with the diagnostics printed along the way.  A stable
loop fault returns the three-NaN tuple (line 259); unstable and neutral loop
faults continue with the partially updated state (lines 319-323, 349-353). -/
def singleCalcCore (d : String) (w p ta ts rh z dt : ℝ) :
    Except PyErr (List V) × List String :=
  match prologue w p ta ts rh z with
  | .error e => (.error e, [])
  | .ok c =>
  match stableInitP c with
  | .error e => (.error e, [])
  | .ok s0 =>
  match runLoop199 (stableBodyP c) s0 with
  | .error _ => (.ok [vnan, vnan, vnan], [stableMsg d])
  | .ok s =>
  match ceStableC c s with
  | .error e => (.error e, [])
  | .ok ceS =>
  let stabS := npDiv (rv c.z) s.L
  match unstableInitP c with
  | .error e => (.error e, [])
  | .ok u0 =>
  let uRes := match unstableLoopP c u0 with
    | .ok u => (u, ([] : List String))
    | .error pu => (pu, [unstableMsg d])
  match ceUnstableC c uRes.1 with
  | .error e => (.error e, uRes.2)
  | .ok ceU =>
  let stabU := npDiv (rv c.z) uRes.1.L
  let n0 : NState := { u_f := uRes.1.u_f, zo := rv 0.0001, zoq := uRes.1.zoq }
  let nRes := match runLoop199 (neutralBodyP c) n0 with
    | .ok n => (n, ([] : List String))
    | .error pn => (pn, [neutralMsg d])
  let ceN := ceNeutralP c nRes.1
  let sel := assignCe ceS ceU ceN stabS stabU
  let E := vmul (vmul (vmul (vmul c.density sel.1) (vsub c.q_sat c.q_air))
      (rv c.wind)) (rv dt)
  (.ok [E, sel.1, c.VPD, realV sel.2], uRes.2 ++ nRes.2)

/-- `Aero.single_calc` (`aeroevap/aero.py` 130-376): the NaN guard on the
seven numeric inputs (lines 154-159, whose diagnostic print is commented
out) followed by the computational pipeline. -/
def singleCalcD (d : String) (w p ta ts rh z dt : Option ℝ) :
    Except PyErr (List V) × List String :=
  match w, p, ta, ts, rh, z, dt with
  | some w, some p, some ta, some ts, some rh, some z, some dt =>
      singleCalcCore d w p ta ts rh z dt
  | _, _, _, _, _, _, _ => (.ok [vnan, vnan, vnan], [])

/-- The legacy `aero` on validated inputs (`aero/aero.py` 70-272).  Every
loop fault is caught and answered with the three-NaN tuple (lines 162-164,
225-227, 253-255). -/
def aeroCore (d : String) (w p ta ts rh z dt : ℝ) :
    Except PyErr (List V) × List String :=
  match prologue w p ta ts rh z with
  | .error e => (.error e, [])
  | .ok c =>
  match stableInitL c with
  | .error e => (.error e, [])
  | .ok s0 =>
  match stableLoopL c s0 with
  | .error _ => (.ok [vnan, vnan, vnan], [legacyMsg d])
  | .ok s =>
  match ceStableC c s with
  | .error e => (.error e, [])
  | .ok ceS =>
  match unstableInitL c with
  | .error e => (.error e, [])
  | .ok u0 =>
  match runLoop199 (unstableBodyL c) u0 with
  | .error _ => (.ok [vnan, vnan, vnan], [legacyMsg d])
  | .ok u =>
  match ceUnstableC c u with
  | .error e => (.error e, [])
  | .ok ceU =>
  let n0 : NState := { u_f := u.u_f, zo := rv 0.0001, zoq := u.zoq }
  match runLoop199 (neutralBodyL c) n0 with
  | .error _ => (.ok [vnan, vnan, vnan], [legacyMsg d])
  | .ok n =>
  match ceNeutralL c n with
  | .error e => (.error e, [])
  | .ok ceN =>
  let Ce := legacyCascade ceS ceU ceN
  let E := vmul (vmul (vmul (vmul c.density Ce) (vsub c.q_sat c.q_air))
      (rv c.wind)) (rv dt)
  (.ok [E, Ce, c.VPD], [])

/-- The legacy `aero` (`aero/aero.py` 9-272): NaN guard (with diagnostic)
then the pipeline. -/
def aeroD (d : String) (w p ta ts rh z dt : Option ℝ) :
    Except PyErr (List V) × List String :=
  match w, p, ta, ts, rh, z, dt with
  | some w, some p, some ta, some ts, some rh, some z, some dt =>
      aeroCore d w p ta ts rh z dt
  | _, _, _, _, _, _, _ => (.ok [vnan, vnan, vnan], [legacyNanMsg d])

/-- The fault-free run of the legacy pipeline: the same phases as `aeroCore`
but with every loop fault propagated instead of being converted to the
three-NaN tuple.  `aeroCore` succeeds without any caught or uncaught fault
exactly when this run returns `.ok`. -/
def aeroCoreNF (w p ta ts rh z dt : ℝ) : Except PyErr (List V) := do
  let c ← prologue w p ta ts rh z
  let s0 ← stableInitL c
  let s ← stableLoopL c s0
  let ceS ← ceStableC c s
  let u0 ← unstableInitL c
  let u ← runLoop199 (unstableBodyL c) u0
  let ceU ← ceUnstableC c u
  let n ← runLoop199 (neutralBodyL c) { u_f := u.u_f, zo := rv 0.0001, zoq := u.zoq }
  let ceN ← ceNeutralL c n
  let Ce := legacyCascade ceS ceU ceN
  pure [vmul (vmul (vmul (vmul c.density Ce) (vsub c.q_sat c.q_air))
      (rv c.wind)) (rv dt), Ce, c.VPD]

/-- `f` applied sequentially `n` times in the error monad: the explicit
iteration-count normal form of the `for` loops. -/
def loopRecE {σ ε : Type} (f : σ → Except ε σ) : Nat → σ → Except ε σ
  | 0, st => .ok st
  | n + 1, st => f st >>= loopRecE f n

/-- Refinement of the legacy outputs by the packaged ones: whenever the left
(legacy, fault-free) run succeeds, the right (packaged) run succeeds with the
same first three outputs E, Ce, VPD. -/
def agreeEVPD (l r : Except PyErr (List V)) : Prop :=
  match l with
  | .error _ => True
  | .ok out => ∃ out4, r = .ok out4 ∧ out4.take 3 = out

/-- The returned E is the product `density * Ce * (q_sat - q_air) * wind *
timestep` of the derived quantities, the selected coefficient and the raw
inputs (trivially true on the non-4-tuple paths, where no E is computed
from a selected coefficient). -/
def EIsProduct (c : Consts) (dt : ℝ) : Except PyErr (List V) → Prop
  | .ok (E :: Ce :: _) =>
      E = vmul (vmul (vmul (vmul c.density Ce) (vsub c.q_sat c.q_air))
        (rv c.wind)) (rv dt)
  | _ => True

/-- Two runs differing only in the timestep: Ce, VPD and stability are
unchanged and E scales linearly with the timestep (cross-multiplied to avoid
division). -/
def ScaleOK (dt dtAlt : ℝ) :
    Except PyErr (List V) → Except PyErr (List V) → Prop
  | .ok [e1, c1, v1, s1], .ok [e2, c2, v2, s2] =>
      c1 = c2 ∧ v1 = v2 ∧ s1 = s2 ∧ vmul e1 (rv dtAlt) = vmul e2 (rv dt)
  | .ok [e1, c1, v1], .ok [e2, c2, v2] => e1 = e2 ∧ c1 = c2 ∧ v1 = v2
  | .error e1, .error e2 => e1 = e2
  | _, _ => False

/-- The Tetens saturation vapor pressure formula of the specification, at a
Celsius temperature. -/
def tetens (Tc : ℝ) : ℝ := 0.6108 * Real.exp (17.27 * Tc / (Tc + 237.3))

/-- The specific-humidity formula of the specification, from pressure (mb)
and vapor pressure (kPa). -/
def qspec (p e : ℝ) : ℝ := 0.62 * e / (p / 10 - 0.38 * e)

/-- The saturation vapor pressure at 20 °C (the degenerate reference input
`wind=0, pressure=1000, T_air=T_skin=20, RH=100, z=2, dt=1800`). -/
def eDeg : ℝ := Real.exp (345.4 / 257.3)

/-- Specific humidity at the degenerate reference input. -/
def qDeg : ℝ := 0.62 * (0.6108 * eDeg) / (100 - 0.38 * (0.6108 * eDeg))

/-- Air density at the degenerate reference input. -/
def dDeg : ℝ := 100000 / (293.15 * 286.9 * (1 + 0.61 * qDeg))

/-- Kinematic viscosity at the degenerate reference input. -/
def vDeg : ℝ := (4.94e-8 * 20 + 1.7185e-5) / dDeg

/-- Virtual temperature at the degenerate reference input. -/
def tvDeg : ℝ := 293.15 * (1 + qDeg * 0.61)

/-- The prologue output at the degenerate reference input. -/
def pcDeg : Consts :=
  { z := 2, wind := 0, Tap := rv 293.15, Tsp := rv 293.15,
    e_air := rv (0.6108 * eDeg), q_air := rv qDeg,
    e_sat := rv (0.6108 * eDeg), q_sat := rv qDeg, VPD := rv 0,
    density := rv dDeg, v := rv vDeg, Tv := rv tvDeg }

/-- Stable and unstable pre-iteration state at the degenerate input. -/
def stDeg0 : SState :=
  { Sm := rv 0, St := rv 0, Sq := rv 0, u_f := rv 0, t_fv := rv 0, q_f := rv 0,
    zo := rv 0.0001, zot := rv 0.00074, zoq := rv 0.00074, L := vnan }

/-- State after one stable/unstable pass at the degenerate input. -/
def stDeg1 : SState :=
  { Sm := vnan, St := rv 0, Sq := vnan, u_f := rv 0, t_fv := rv 0, q_f := rv 0,
    zo := vnan, zot := rv 0.00074, zoq := vnan, L := vnan }

/-- The fixed point reached after two stable/unstable passes at the
degenerate input. -/
def stDeg2 : SState :=
  { Sm := vnan, St := rv 0, Sq := vnan, u_f := vnan, t_fv := rv 0, q_f := vnan,
    zo := vnan, zot := rv 0.00074, zoq := vnan, L := vnan }

/-- Neutral-loop seed at the degenerate input (carrying over `u_f`, `zoq`
from the unstable fixed point). -/
def nDeg0 : NState := { u_f := vnan, zo := rv 0.0001, zoq := vnan }

/-- Neutral state after one pass at the degenerate input. -/
def nDeg1 : NState := { u_f := rv 0, zo := vnan, zoq := vnan }

/-- The neutral fixed point at the degenerate input. -/
def nDeg2 : NState := { u_f := vnan, zo := vnan, zoq := vnan }

/-- The roughness-length-of-vapor update formula evaluated on the freshly
updated momentum roughness length and friction velocity of a state:
`z0q = 7.4*z0*exp(-2.25*(z0*u_f/v)^0.25)`. -/
def zoqFresh (c : Consts) (s : SState) : V :=
  vmul (rv 7.4)
    (vmul s.zo (cexpV (vmul (rv (-2.25)) (cpowV (npDiv (vmul s.zo s.u_f) c.v) 0.25))))

/-- Derived quantities used by the candidate-extraction example (only the
sensor height matters there). -/
def pcW4 : Consts :=
  { z := 2, wind := 0, Tap := rv 0, Tsp := rv 0, e_air := rv 0, q_air := rv 0,
    e_sat := rv 0, q_sat := rv 0, VPD := rv 0, density := rv 0, v := rv 0,
    Tv := rv 0 }

/-- A post-loop state on which the stable candidate is accepted. -/
def stW4 : SState :=
  { Sm := rv (-1), St := rv 0, Sq := rv (-1), u_f := rv 0, t_fv := rv 0,
    q_f := rv 0, zo := rv 2, zot := rv 2, zoq := rv 2, L := rv 1 }

/-- Derived quantities for the loop-body example (`z=1`, `wind=0`, `v=1`). -/
def pcW5 : Consts :=
  { z := 1, wind := 0, Tap := rv 0, Tsp := rv 0, e_air := rv 0, q_air := rv 0,
    e_sat := rv 0, q_sat := rv 0, VPD := rv 0, density := rv 0, v := rv 1,
    Tv := rv 1 }

/-- A loop state on which one stable pass is computable in closed form. -/
def stW5 : SState :=
  { Sm := rv 0, St := rv 0, Sq := rv 0, u_f := rv 0, t_fv := rv 0, q_f := rv 0,
    zo := rv 1, zot := rv 1, zoq := rv 1, L := rv 1 }

/-- The state after one stable pass from `stW5` under `pcW5`. -/
def stW5res : SState :=
  { Sm := rv (-5.2), St := rv 0, Sq := rv (-5.2), u_f := vnan, t_fv := vnan,
    q_f := vnan, zo := vnan, zot := rv 1, zoq := vnan, L := vnan }

/-! ### Computation rules for the value operations -/

theorem vadd_some_some (x y : ℂ) : vadd (some x) (some y) = some (x + y) := rfl

theorem vadd_none_left (x : V) : vadd none x = none := rfl

theorem vadd_none_right (x : V) : vadd x none = none := by cases x <;> rfl

theorem vsub_some_some (x y : ℂ) : vsub (some x) (some y) = some (x - y) := rfl

theorem vsub_none_left (x : V) : vsub none x = none := rfl

theorem vsub_none_right (x : V) : vsub x none = none := by cases x <;> rfl

theorem vmul_some_some (x y : ℂ) : vmul (some x) (some y) = some (x * y) := rfl

theorem vmul_none_left (x : V) : vmul none x = none := rfl

theorem vmul_none_right (x : V) : vmul x none = none := by cases x <;> rfl

theorem npDiv_some_some (x y : ℂ) :
    npDiv (some x) (some y) = if y = 0 then none else some (x / y) := rfl

theorem npDiv_none_left (x : V) : npDiv none x = none := rfl

theorem npDiv_none_right (x : V) : npDiv x none = none := by cases x <;> rfl

theorem pyDiv_none_right (x : V) : pyDiv x none = .ok none := by cases x <;> rfl

theorem pyDiv_some (x : V) (y : ℂ) :
    pyDiv x (some y) = if y = 0 then .error .zeroDiv else .ok (x.map (· / y)) := by
  cases x <;> rfl

theorem cexpV_some (x : ℂ) : cexpV (some x) = some (Complex.exp x) := rfl

theorem cexpV_none : cexpV none = none := rfl

theorem cpowV_some (x : ℂ) (e : ℝ) : cpowV (some x) e = some (x ^ (e : ℂ)) := rfl

theorem cpowV_none (e : ℝ) : cpowV none e = none := rfl

theorem npPowQ_some (x : ℂ) (e : ℝ) :
    npPowQ (some x) e =
      if x.im = 0 ∧ x.re < 0 then none else some (x ^ (e : ℂ)) := rfl

theorem npPowQ_none (e : ℝ) : npPowQ none e = none := rfl

theorem clogE_some (x : ℂ) :
    clogE (some x) = if x = 0 then .error .domain else .ok (some (Complex.log x)) := rfl

theorem clogE_none : clogE none = .ok none := rfl

theorem emathLog_some (x : ℂ) :
    emathLog (some x) = if x = 0 then none else some (Complex.log x) := rfl

theorem emathLog_none : emathLog none = none := rfl

theorem mexpE_some (x : ℂ) :
    mexpE (some x) =
      if x.im = 0 then .ok (some ((Real.exp x.re : ℝ) : ℂ)) else .error .typeErr := rfl

theorem mexpE_none : mexpE none = .ok none := rfl

theorem mlogE_some (x : ℂ) :
    mlogE (some x) =
      if x.im = 0 then
        if 0 < x.re then .ok (some ((Real.log x.re : ℝ) : ℂ)) else .error .domain
      else .error .typeErr := rfl

theorem mlogE_none : mlogE none = .ok none := rfl

theorem catanE_some (x : ℂ) :
    catanE (some x) =
      if x = Complex.I ∨ x = -Complex.I then .error .domain
      else .ok (some (catanF x)) := rfl

theorem catanE_none : catanE none = .ok none := rfl

theorem realV_some (x : ℂ) : realV (some x) = some ((x.re : ℝ) : ℂ) := rfl

theorem realV_none : realV none = none := rfl

theorem isfiniteV_some (x : ℂ) : isfiniteV (some x) = true := rfl

theorem isfiniteV_none : isfiniteV none = false := rfl

theorem isrealV_none_iff : isrealV none ↔ False := Iff.rfl

theorem rePos_none_iff : rePos none ↔ False := Iff.rfl

theorem rv_def (x : ℝ) : rv x = some (x : ℂ) := rfl

theorem vnan_def : vnan = none := rfl

theorem exceptOk_bind {ε α β : Type} (x : α) (f : α → Except ε β) :
    (Except.ok x >>= f) = f x := rfl

theorem exceptError_bind {ε α β : Type} (e : ε) (f : α → Except ε β) :
    ((Except.error e : Except ε α) >>= f) = .error e := rfl

theorem exceptPure {ε α : Type} (x : α) : (pure x : Except ε α) = .ok x := rfl

/-- `pyDiv` succeeds exactly when the denominator is not an exact zero, and
then computes the same value as `np.divide`. -/
theorem pyDiv_eq_ok_iff (x y : V) (v : V) :
    pyDiv x y = .ok v ↔ y ≠ some 0 ∧ v = npDiv x y := by
  cases y with
  | none =>
      simp only [pyDiv_none_right, npDiv_none_right]
      constructor
      · rintro h; exact ⟨by simp, by cases h; rfl⟩
      · rintro ⟨-, rfl⟩; rfl
  | some b =>
      rw [pyDiv_some]
      by_cases hb : b = 0
      · subst hb
        simp only [if_pos rfl]
        constructor
        · rintro ⟨⟩
        · rintro ⟨hne, -⟩; exact absurd rfl hne
      · simp only [if_neg hb]
        constructor
        · rintro h
          refine ⟨by simpa using hb, ?_⟩
          cases h
          cases x <;> simp [npDiv, hb]
        · rintro ⟨-, rfl⟩
          cases x <;> simp [npDiv, hb]

theorem pyDiv_ok_eq {x y v : V} (h : pyDiv x y = .ok v) : v = npDiv x y :=
  ((pyDiv_eq_ok_iff x y v).mp h).2

/-- `math.log` succeeding implies `np.emath.log` returns the same value. -/
theorem mlogE_ok_eq {x v : V} (h : mlogE x = .ok v) : v = emathLog x := by
  cases x with
  | none => cases h; rfl
  | some c =>
      rw [mlogE_some] at h
      by_cases him : c.im = 0
      · rw [if_pos him] at h
        by_cases hre : 0 < c.re
        · rw [if_pos hre] at h
          cases h
          have hc : c = ((c.re : ℝ) : ℂ) := by
            exact (Complex.ext_iff.mpr ⟨rfl, by simpa using him⟩)
          have hcne : c ≠ 0 := by
            intro h0; rw [h0] at hre; simp at hre
          rw [emathLog_some, if_neg hcne]
          congr 1
          rw [Complex.ofReal_log hre.le]
          congr 1
          exact hc.symm
        · rw [if_neg hre] at h; cases h
      · rw [if_neg him] at h; cases h

/-! ### Loop structure lemmas -/

theorem loopRecE_zero {σ ε : Type} (f : σ → Except ε σ) (st : σ) :
    loopRecE f 0 st = .ok st := rfl

theorem loopRecE_succ {σ ε : Type} (f : σ → Except ε σ) (n : Nat) (st : σ) :
    loopRecE f (n + 1) st = f st >>= loopRecE f n := rfl

theorem foldlM_const_eq_loopRecE {σ ε α : Type} (f : σ → Except ε σ)
    (l : List α) (st : σ) :
    l.foldlM (fun s _x => f s) st = loopRecE f l.length st := by
  induction l generalizing st with
  | nil => rfl
  | cons x xs ih =>
      rw [List.foldlM_cons, List.length_cons, loopRecE_succ]
      cases h : f st with
      | error e => rfl
      | ok s1 => exact ih s1

theorem runLoop199_eq_loopRecE {σ ε : Type} (f : σ → Except ε σ) (st : σ) :
    runLoop199 f st = loopRecE f 199 st := by
  unfold runLoop199
  rw [foldlM_const_eq_loopRecE, List.length_range]

theorem runLoopN_eq_loopRecE {σ ε : Type} (n : Nat) (f : σ → Except ε σ)
    (st : σ) : runLoopN n f st = loopRecE f n st := by
  unfold runLoopN
  rw [foldlM_const_eq_loopRecE, List.length_range]

theorem loopRecE_fixed {σ ε : Type} (f : σ → Except ε σ) (st : σ)
    (h : f st = .ok st) : ∀ n, loopRecE f n st = .ok st := by
  intro n
  induction n with
  | zero => rfl
  | succ n ih => rw [loopRecE_succ, h, exceptOk_bind]; exact ih

theorem loopRecE_lockstep {σ ε ε2 : Type} {f : σ → Except ε σ}
    {f2 : σ → Except ε2 σ} (hfg : ∀ s s1, f s = .ok s1 → f2 s = .ok s1) :
    ∀ n st st1, loopRecE f n st = .ok st1 → loopRecE f2 n st = .ok st1 := by
  intro n
  induction n with
  | zero => intro st st1 h; cases h; rfl
  | succ n ih =>
      intro st st1 h
      rw [loopRecE_succ] at h ⊢
      cases hf : f st with
      | error e => rw [hf, exceptError_bind] at h; cases h
      | ok s1 =>
          rw [hf, exceptOk_bind] at h
          rw [hfg _ _ hf, exceptOk_bind]
          exact ih s1 st1 h

/-- The first unstable pass coincides with the later-pass body whenever the
numpy float power agrees with the principal complex power on its base, i.e.
whenever `1-16*(z/L)` is not a negative real (in particular whenever it is
non-finite). -/
theorem unstableBody1P_eq_unstableBodyP {c : Consts} {st : SState}
    (hx : npPowQ (vsub (rv 1) (vmul (rv 16) (npDiv (rv c.z) st.L))) 0.25 =
      cpowV (vsub (rv 1) (vmul (rv 16) (npDiv (rv c.z) st.L))) 0.25) :
    unstableBody1P c st = unstableBodyP c st := by
  unfold unstableBody1P unstableBodyP
  try simp only []
  rw [hx]

/-! ### Claim theorems -/

/-- C9: every regime loop of `Aero.single_calc` performs exactly 199
sequential applications of its per-iteration body (unless the body faults,
which aborts the fold at that point exactly as the `except` handlers see it);
there is no data-dependent early exit.  The unstable loop, whose first pass
runs with float-power dtypes, is one application of the first-pass body
followed by 198 of the later-pass body: 199 in total. -/
theorem c9_loops_execute_199_iterations :
    ∀ (c : Consts) (s : SState) (n : NState),
      runLoop199 (stableBodyP c) s = loopRecE (stableBodyP c) 199 s ∧
      runLoop199 (unstableBodyP c) s = loopRecE (unstableBodyP c) 199 s ∧
      runLoop199 (neutralBodyP c) n = loopRecE (neutralBodyP c) 199 n ∧
      unstableLoopP c s = unstableBody1P c s >>= loopRecE (unstableBodyP c) 198 := by
  intro c s n
  refine ⟨runLoop199_eq_loopRecE _ s, runLoop199_eq_loopRecE _ s,
    runLoop199_eq_loopRecE _ n, ?_⟩
  unfold unstableLoopP
  rw [funext (runLoopN_eq_loopRecE 198 (unstableBodyP c))]

/-- C3: regime selection in `Aero.single_calc` is the priority cascade
stable-then-unstable-then-neutral on `cmath.isfinite`, with the reported
stability taken from the selected regime and exactly `0` for the neutral
fallback. -/
theorem c3_selection_priority_cascade (ceS ceU ceN sS sU : V) :
    (isfiniteV ceS = true → assignCe ceS ceU ceN sS sU = (ceS, sS)) ∧
    (isfiniteV ceS = false → isfiniteV ceU = true →
      assignCe ceS ceU ceN sS sU = (ceU, sU)) ∧
    (isfiniteV ceS = false → isfiniteV ceU = false →
      assignCe ceS ceU ceN sS sU = (ceN, rv 0)) := by
  unfold assignCe
  refine ⟨fun h1 => ?_, fun h1 h2 => ?_, fun h1 h2 => ?_⟩ <;> simp [h1]
  · simp [h2]
  · simp [h2]

/-- Witness for C3 at concrete candidate values: with a non-finite stable
candidate and a finite unstable one, the unstable pair is selected. -/
theorem c3_witness :
    assignCe vnan (rv 1) (rv 2) (rv 3) (rv 4) = (rv 1, rv 4) :=
  (c3_selection_priority_cascade vnan (rv 1) (rv 2) (rv 3) (rv 4)).2.1 rfl rfl

/-- C4: a stable candidate that ends up finite forces a real Monin-Obukhov
length and a nonnegative (indeed positive) real stability `z/L`; an unstable
finite candidate forces a real `L` and a nonpositive stability. -/
theorem c4_sign_invariant (c : Consts) (st : SState) (ce : V) :
    (ceStableC c st = .ok ce → isfiniteV ce = true →
      (∃ l : ℂ, st.L = some l ∧ l.im = 0) ∧
      ∃ s : ℂ, npDiv (rv c.z) st.L = some s ∧ s.im = 0 ∧ 0 ≤ s.re) ∧
    (ceUnstableC c st = .ok ce → isfiniteV ce = true →
      (∃ l : ℂ, st.L = some l ∧ l.im = 0) ∧
      ∃ s : ℂ, npDiv (rv c.z) st.L = some s ∧ s.im = 0 ∧ s.re ≤ 0) := by
  constructor
  · intro hok hfin
    unfold ceStableC at hok
    by_cases hr : isrealV st.L
    · rw [if_pos hr] at hok
      by_cases hp : rePos (npDiv (rv c.z) st.L)
      · obtain ⟨l, hL⟩ : ∃ l, st.L = some l := by
          cases hcase : st.L with
          | none => rw [hcase] at hr; exact absurd hr (by simp [isrealV])
          | some l => exact ⟨l, rfl⟩
        rw [hL] at hr hp
        have him : l.im = 0 := hr
        refine ⟨⟨l, hL, him⟩, ?_⟩
        have hlne : l ≠ 0 := by
          intro h0
          rw [h0] at hp
          simp [rv_def, npDiv_some_some, rePos] at hp
        rw [rv_def, npDiv_some_some, if_neg hlne] at hp
        rw [hL, rv_def, npDiv_some_some, if_neg hlne]
        have hl : l = ((l.re : ℝ) : ℂ) :=
          Complex.ext_iff.mpr ⟨rfl, by simpa using him⟩
        refine ⟨(c.z : ℂ) / l, rfl, ?_, le_of_lt ?_⟩
        · rw [hl, ← Complex.ofReal_div]
          simp
        · exact hp
      · rw [if_neg hp] at hok
        simp only [exceptPure] at hok
        cases hok
        simp [vnan, isfiniteV] at hfin
    · rw [if_neg hr] at hok
      simp only [exceptPure] at hok
      cases hok
      simp [vnan, isfiniteV] at hfin
  · intro hok hfin
    unfold ceUnstableC at hok
    by_cases hr : isrealV st.L
    · rw [if_pos hr] at hok
      by_cases hp : reNeg (npDiv (rv c.z) st.L)
      · obtain ⟨l, hL⟩ : ∃ l, st.L = some l := by
          cases hcase : st.L with
          | none => rw [hcase] at hr; exact absurd hr (by simp [isrealV])
          | some l => exact ⟨l, rfl⟩
        rw [hL] at hr hp
        have him : l.im = 0 := hr
        refine ⟨⟨l, hL, him⟩, ?_⟩
        have hlne : l ≠ 0 := by
          intro h0
          rw [h0] at hp
          simp [rv_def, npDiv_some_some, reNeg] at hp
        rw [rv_def, npDiv_some_some, if_neg hlne] at hp
        rw [hL, rv_def, npDiv_some_some, if_neg hlne]
        have hl : l = ((l.re : ℝ) : ℂ) :=
          Complex.ext_iff.mpr ⟨rfl, by simpa using him⟩
        refine ⟨(c.z : ℂ) / l, rfl, ?_, le_of_lt ?_⟩
        · rw [hl, ← Complex.ofReal_div]
          simp
        · exact hp
      · rw [if_neg hp] at hok
        simp only [exceptPure] at hok
        cases hok
        simp [vnan, isfiniteV] at hfin
    · rw [if_neg hr] at hok
      simp only [exceptPure] at hok
      cases hok
      simp [vnan, isfiniteV] at hfin

/-- Evaluation of the stable candidate extraction on the concrete post-loop
state `stW4`: the candidate is accepted with value `K²`. -/
theorem ceStableW4_eval : ceStableC pcW4 stW4 = .ok (rv (K ^ 2)) := by
  have hreal : isrealV stW4.L := by simp [stW4, rv_def, isrealV]
  have hpos : rePos (npDiv (rv pcW4.z) stW4.L) := by
    simp only [stW4, pcW4, rv_def, npDiv_some_some, rePos]
    norm_num
  unfold ceStableC
  rw [if_pos hreal, if_pos hpos]
  have e1 : pyDiv (rv pcW4.z) stW4.zo = .ok (some 1) := by
    simp only [pcW4, stW4, rv_def, pyDiv_some]
    norm_num
  have e2 : clogE (some 1) = .ok (some 0) := by
    simp [clogE_some, Complex.log_one]
  have e3 : pyDiv (rv pcW4.z) stW4.zoq = .ok (some 1) := by
    simp only [pcW4, stW4, rv_def, pyDiv_some]
    norm_num
  rw [e1, exceptOk_bind, e2, exceptOk_bind, e3, exceptOk_bind, e2, exceptOk_bind]
  have e4 : vmul (vsub (some 0) stW4.Sm) (vsub (some 0) stW4.Sq) = some 1 := by
    simp only [stW4, rv_def, vsub_some_some, vmul_some_some]
    norm_num
  rw [e4]
  have e5 : pyDiv (rv (K ^ 2)) (some 1) = .ok (some ((K ^ 2 : ℝ) : ℂ)) := by
    simp only [rv_def, pyDiv_some]
    norm_num
  rw [e5, exceptOk_bind]
  simp [realV_some, exceptPure, rv_def, ← Complex.ofReal_pow]

/-- Witness for C4: the conclusion at the concrete accepted stable candidate
(`L = 1`, stability `z/L = 2`). -/
theorem c4_witness :
    (∃ l : ℂ, stW4.L = some l ∧ l.im = 0) ∧
    ∃ s : ℂ, npDiv (rv pcW4.z) stW4.L = some s ∧ s.im = 0 ∧ 0 ≤ s.re :=
  (c4_sign_invariant pcW4 stW4 (rv (K ^ 2))).1 ceStableW4_eval rfl

/-- Evaluation of one stable pass on the concrete state `stW5`: the freshly
updated friction velocity degenerates to NaN (zero denominator in the
`np.divide`), which propagates into `z0`, `z0q` and `L`, while `z0t` keeps
its incoming value. -/
theorem stableBodyW5_eval : stableBodyP pcW5 stW5 = .ok stW5res := by
  have e1 : clogE (npDiv (rv pcW5.z) stW5.zo) = .ok (some 0) := by
    simp only [pcW5, stW5, rv_def, npDiv_some_some]
    norm_num [clogE_some, Complex.log_one]
  have e2 : clogE (npDiv (rv pcW5.z) stW5.zot) = .ok (some 0) := by
    simp only [pcW5, stW5, rv_def, npDiv_some_some]
    norm_num [clogE_some, Complex.log_one]
  have e3 : clogE (npDiv (rv pcW5.z) stW5.zoq) = .ok (some 0) := by
    simp only [pcW5, stW5, rv_def, npDiv_some_some]
    norm_num [clogE_some, Complex.log_one]
  unfold stableBodyP
  rw [e1, exceptOk_bind, e2, exceptOk_bind, e3, exceptOk_bind]
  simp only [exceptPure, Except.ok.injEq]
  show SState.mk _ _ _ _ _ _ _ _ _ _ = stW5res
  unfold stW5res
  simp only [pcW5, stW5, rv_def, vnan_def, SState.mk.injEq,
    vsub_some_some, vmul_some_some, vadd_some_some, npDiv_some_some]
  norm_num [vmul_none_left, vmul_none_right, vadd_none_left, vadd_none_right,
    npDiv_none_left, npDiv_none_right, vsub_none_left, vsub_none_right,
    cexpV_none, cpowV_none]

/-- C5 (amended): each pass of the stable and unstable loops recomputes
`z0q = 7.4*z0*exp(-2.25*(z0*u*/v)^0.25)` from the freshly updated momentum
roughness length and friction velocity, but the temperature roughness length
`z0t` is set only during initialization and is never updated by the loop. -/
theorem c5_zoq_fresh_zot_stale (c : Consts) (st st2 : SState) :
    (stableBodyP c st = .ok st2 → st2.zot = st.zot ∧ st2.zoq = zoqFresh c st2) ∧
    (unstableBodyP c st = .ok st2 → st2.zot = st.zot ∧ st2.zoq = zoqFresh c st2) ∧
    (unstableBody1P c st = .ok st2 → st2.zot = st.zot ∧ st2.zoq = zoqFresh c st2) := by
  refine ⟨?_, ?_, ?_⟩
  · intro h
    unfold stableBodyP at h
    cases h1 : clogE (npDiv (rv c.z) st.zo) with
    | error e => rw [h1, exceptError_bind] at h; cases h
    | ok l1 =>
        rw [h1, exceptOk_bind] at h
        cases h2 : clogE (npDiv (rv c.z) st.zot) with
        | error e => rw [h2, exceptError_bind] at h; cases h
        | ok l2 =>
            rw [h2, exceptOk_bind] at h
            cases h3 : clogE (npDiv (rv c.z) st.zoq) with
            | error e => rw [h3, exceptError_bind] at h; cases h
            | ok l3 =>
                rw [h3, exceptOk_bind] at h
                simp only [exceptPure] at h
                cases h
                exact ⟨rfl, rfl⟩
  · intro h
    unfold unstableBodyP at h
    cases h1 : tryE (clogE (npDiv (rv c.z) st.zo)) st with
    | error e => rw [h1, exceptError_bind] at h; cases h
    | ok l1 =>
    rw [h1, exceptOk_bind] at h
    try simp only [] at h
    revert h
    generalize npDiv (vmul (rv K) (vsub (rv c.wind) st.u_f)) (vsub l1 st.Sm) = uf
    intro h
    cases h2 : tryE (clogE (npDiv (rv c.z) st.zot)) { st with u_f := uf } with
    | error e => rw [h2, exceptError_bind] at h; cases h
    | ok l2 =>
    rw [h2, exceptOk_bind] at h
    try simp only [] at h
    revert h
    generalize npDiv (vmul (rv K) (vsub c.Tap c.Tsp)) (vsub l2 st.St) = tf
    intro h
    cases h3 : tryE (clogE (npDiv (rv c.z) st.zoq))
        { st with u_f := uf, t_fv := tf } with
    | error e => rw [h3, exceptError_bind] at h; cases h
    | ok l3 =>
    rw [h3, exceptOk_bind] at h
    try simp only [] at h
    revert h
    generalize npDiv (vmul (rv K) (vsub c.q_air c.q_sat)) (vsub l3 st.Sq) = qf
    generalize cpowV (vsub (rv 1) (vmul (rv 16) (npDiv (rv c.z) st.L))) 0.25 = xx
    intro h
    cases h4 : tryE (clogE (npDiv (vadd (rv 1) xx) (rv 2)))
        { st with u_f := uf, t_fv := tf, q_f := qf } with
    | error e => rw [h4, exceptError_bind] at h; cases h
    | ok m1 =>
    rw [h4, exceptOk_bind] at h
    try simp only [] at h
    cases h5 : tryE (clogE (npDiv (vadd (rv 1) (vmul xx xx)) (rv 2)))
        { st with u_f := uf, t_fv := tf, q_f := qf } with
    | error e => rw [h5, exceptError_bind] at h; cases h
    | ok m2 =>
    rw [h5, exceptOk_bind] at h
    try simp only [] at h
    cases h6 : tryE (catanE xx) { st with u_f := uf, t_fv := tf, q_f := qf } with
    | error e => rw [h6, exceptError_bind] at h; cases h
    | ok m3 =>
    rw [h6, exceptOk_bind] at h
    try simp only [] at h
    revert h
    generalize vadd (vsub (vadd (vmul (rv 2) m1) m2) (vmul (rv 2) m3))
        (rv (Real.pi / 2)) = sm
    intro h
    cases h7 : tryE (clogE (npDiv (vadd (rv 1) (vmul xx xx)) (rv 2)))
        { st with u_f := uf, t_fv := tf, q_f := qf, Sm := sm } with
    | error e => rw [h7, exceptError_bind] at h; cases h
    | ok m4 =>
    rw [h7, exceptOk_bind] at h
    simp only [exceptPure] at h
    cases h
    exact ⟨rfl, rfl⟩
  · intro h
    unfold unstableBody1P at h
    cases h1 : tryE (clogE (npDiv (rv c.z) st.zo)) st with
    | error e => rw [h1, exceptError_bind] at h; cases h
    | ok l1 =>
    rw [h1, exceptOk_bind] at h
    try simp only [] at h
    revert h
    generalize npDiv (vmul (rv K) (vsub (rv c.wind) st.u_f)) (vsub l1 st.Sm) = uf
    intro h
    cases h2 : tryE (clogE (npDiv (rv c.z) st.zot)) { st with u_f := uf } with
    | error e => rw [h2, exceptError_bind] at h; cases h
    | ok l2 =>
    rw [h2, exceptOk_bind] at h
    try simp only [] at h
    revert h
    generalize npDiv (vmul (rv K) (vsub c.Tap c.Tsp)) (vsub l2 st.St) = tf
    intro h
    cases h3 : tryE (clogE (npDiv (rv c.z) st.zoq))
        { st with u_f := uf, t_fv := tf } with
    | error e => rw [h3, exceptError_bind] at h; cases h
    | ok l3 =>
    rw [h3, exceptOk_bind] at h
    try simp only [] at h
    revert h
    generalize npDiv (vmul (rv K) (vsub c.q_air c.q_sat)) (vsub l3 st.Sq) = qf
    generalize npPowQ (vsub (rv 1) (vmul (rv 16) (npDiv (rv c.z) st.L))) 0.25 = xx
    intro h
    cases h4 : tryE (clogE (npDiv (vadd (rv 1) xx) (rv 2)))
        { st with u_f := uf, t_fv := tf, q_f := qf } with
    | error e => rw [h4, exceptError_bind] at h; cases h
    | ok m1 =>
    rw [h4, exceptOk_bind] at h
    try simp only [] at h
    cases h5 : tryE (clogE (npDiv (vadd (rv 1) (vmul xx xx)) (rv 2)))
        { st with u_f := uf, t_fv := tf, q_f := qf } with
    | error e => rw [h5, exceptError_bind] at h; cases h
    | ok m2 =>
    rw [h5, exceptOk_bind] at h
    try simp only [] at h
    cases h6 : tryE (catanE xx) { st with u_f := uf, t_fv := tf, q_f := qf } with
    | error e => rw [h6, exceptError_bind] at h; cases h
    | ok m3 =>
    rw [h6, exceptOk_bind] at h
    try simp only [] at h
    revert h
    generalize vadd (vsub (vadd (vmul (rv 2) m1) m2) (vmul (rv 2) m3))
        (rv (Real.pi / 2)) = sm
    intro h
    cases h7 : tryE (clogE (npDiv (vadd (rv 1) (vmul xx xx)) (rv 2)))
        { st with u_f := uf, t_fv := tf, q_f := qf, Sm := sm } with
    | error e => rw [h7, exceptError_bind] at h; cases h
    | ok m4 =>
    rw [h7, exceptOk_bind] at h
    simp only [exceptPure] at h
    cases h
    exact ⟨rfl, rfl⟩

/-- Counterexample to C5 as stated: after one stable pass from `stW5`, the
temperature roughness length is not the claimed update
`7.4*z0*exp(-2.25*(z0*u*/v)^0.25)` of the fresh `z0` and `u*` (the pass keeps
`z0t = 1` while the claimed update value is NaN). -/
theorem c5_counterexample :
    stableBodyP pcW5 stW5 = .ok stW5res ∧
    stW5res.zot ≠ zoqFresh pcW5 stW5res := by
  refine ⟨stableBodyW5_eval, ?_⟩
  simp [stW5res, zoqFresh, vnan_def, rv_def, vmul_none_left, vmul_none_right]

/-- Witness for C5 (amended) at the concrete pass from `stW5`. -/
theorem c5_witness :
    stW5res.zot = stW5.zot ∧ stW5res.zoq = zoqFresh pcW5 stW5res :=
  (c5_zoq_fresh_zot_stale pcW5 stW5 stW5res).1 stableBodyW5_eval

/-- C1 (amended): when any of the seven numeric inputs is NaN/missing,
`Aero.single_calc` returns a three-component tuple `(nan, nan, nan)` — not a
four-component one — and raises no exception (and prints nothing: the
diagnostic on this path is commented out in the source). -/
theorem c1_missing_input_three_nans (d : String) (w p ta ts rh z dt : Option ℝ)
    (h : w = none ∨ p = none ∨ ta = none ∨ ts = none ∨ rh = none ∨
      z = none ∨ dt = none) :
    singleCalcD d w p ta ts rh z dt = (.ok [vnan, vnan, vnan], []) := by
  unfold singleCalcD
  cases w <;> cases p <;> cases ta <;> cases ts <;> cases rh <;> cases z <;>
    cases dt <;> first | rfl | simp_all

/-- Witness for C1 (amended) with a missing wind speed. -/
theorem c1_witness :
    singleCalcD "2020-01-01" none (some 1000) (some 20) (some 19) (some 50)
      (some 2) (some 1800) = (.ok [vnan, vnan, vnan], []) :=
  c1_missing_input_three_nans "2020-01-01" none (some 1000) (some 20) (some 19)
    (some 50) (some 2) (some 1800) (Or.inl rfl)

/-- Counterexample to C1 as stated: with a NaN wind speed the call returns a
three-element result, so there is no fourth (stability) output to be NaN. -/
theorem c1_counterexample :
    (singleCalcD "2020-01-01" none (some 1000) (some 20) (some 19) (some 50)
      (some 2) (some 1800)).1 = .ok [vnan, vnan, vnan] ∧
    ([vnan, vnan, vnan] : List V).length ≠ 4 := ⟨rfl, by simp⟩

theorem rv_inj {x y : ℝ} (h : rv x = rv y) : x = y := by
  simp only [rv_def, Option.some.injEq] at h
  exact_mod_cast h

theorem vmul_rv (x y : ℝ) : vmul (rv x) (rv y) = rv (x * y) := by
  simp [rv_def, vmul_some_some]

theorem vsub_rv (x y : ℝ) : vsub (rv x) (rv y) = rv (x - y) := by
  simp [rv_def, vsub_some_some]

theorem vadd_rv (x y : ℝ) : vadd (rv x) (rv y) = rv (x + y) := by
  simp [rv_def, vadd_some_some]

theorem pyDiv_rv_ok {A B : ℝ} {v : V} (h : pyDiv (rv A) (rv B) = .ok v) :
    B ≠ 0 ∧ v = rv (A / B) := by
  obtain ⟨hne, hv⟩ := (pyDiv_eq_ok_iff _ _ _).mp h
  have hB : (B : ℂ) ≠ 0 := by
    intro h0
    exact hne (by rw [rv_def, h0])
  refine ⟨by exact_mod_cast hB, ?_⟩
  rw [hv, rv_def, rv_def, npDiv_some_some, if_neg hB, rv_def, ← Complex.ofReal_div]

theorem mexpE_rv_ok {r : ℝ} {v : V} (h : mexpE (rv r) = .ok v) :
    v = rv (Real.exp r) := by
  rw [rv_def, mexpE_some] at h
  rw [if_pos (by simp)] at h
  cases h
  simp [rv_def]

/-- Every branch of the computational pipeline produces the same result for
any two datetime strings. -/
theorem singleCalcCore_fst_eq (d1 d2 : String) (w p ta ts rh z dt : ℝ) :
    (singleCalcCore d1 w p ta ts rh z dt).1 =
    (singleCalcCore d2 w p ta ts rh z dt).1 := by
  unfold singleCalcCore
  cases prologue w p ta ts rh z with
  | error e => rfl
  | ok c =>
  try simp only []
  cases stableInitP c with
  | error e => rfl
  | ok s0 =>
  try simp only []
  cases runLoop199 (stableBodyP c) s0 with
  | error e => rfl
  | ok s =>
  try simp only []
  cases ceStableC c s with
  | error e => rfl
  | ok ceS =>
  try simp only []
  cases unstableInitP c with
  | error e => rfl
  | ok u0 =>
  try simp only []
  cases unstableLoopP c u0 with
  | error pu =>
      try simp only []
      cases ceUnstableC c pu with
      | error e => rfl
      | ok ceU =>
          try simp only []
          cases runLoop199 (neutralBodyP c)
            { u_f := pu.u_f, zo := rv 0.0001, zoq := pu.zoq } with
          | error pn => rfl
          | ok n => rfl
  | ok u =>
      try simp only []
      cases ceUnstableC c u with
      | error e => rfl
      | ok ceU =>
          try simp only []
          cases runLoop199 (neutralBodyP c)
            { u_f := u.u_f, zo := rv 0.0001, zoq := u.zoq } with
          | error pn => rfl
          | ok n => rfl

/-- C10: the datetime argument of `Aero.single_calc` influences only the
diagnostic messages, never the computed outputs: two calls with identical
numeric inputs and arbitrary different datetimes return identical results. -/
theorem c10_datetime_only_diagnostic (d1 d2 : String)
    (w p ta ts rh z dt : Option ℝ) :
    (singleCalcD d1 w p ta ts rh z dt).1 = (singleCalcD d2 w p ta ts rh z dt).1 := by
  unfold singleCalcD
  cases w <;> cases p <;> cases ta <;> cases ts <;> cases rh <;> cases z <;>
    cases dt <;> first | rfl | exact singleCalcCore_fst_eq d1 d2 _ _ _ _ _ _ _

/-- C7: on any validated input whose prologue completes, the derived
quantities satisfy the Tetens/specific-humidity/VPD formulas of the
specification. -/
theorem c7_derived_formulas (w p ta ts rh z : ℝ) (pc : Consts)
    (h : prologue w p ta ts rh z = .ok pc) :
    pc.e_sat = rv (tetens ts) ∧
    pc.e_air = rv (rh / 100 * tetens ta) ∧
    pc.q_sat = rv (qspec p (tetens ts)) ∧
    pc.q_air = rv (qspec p (rh / 100 * tetens ta)) ∧
    pc.VPD = rv (tetens ts - rh / 100 * tetens ta) := by
  unfold prologue at h
  cases h1 : pyDiv (rv 1000) (rv p) with
  | error e => rw [h1, exceptError_bind] at h; cases h
  | ok pr0 =>
  rw [h1, exceptOk_bind] at h
  try simp only [] at h
  cases h2 : pyDiv (rv (17.27 * (ta + 273.15 - 273.15)))
      (rv (ta + 273.15 - 273.15 + 237.3)) with
  | error e => rw [h2, exceptError_bind] at h; cases h
  | ok t1v =>
  rw [h2, exceptOk_bind] at h
  try simp only [] at h
  obtain ⟨hB1, ht1⟩ := pyDiv_rv_ok h2
  subst ht1
  cases h3 : mexpE (rv (17.27 * (ta + 273.15 - 273.15) /
      (ta + 273.15 - 273.15 + 237.3))) with
  | error e => rw [h3, exceptError_bind] at h; cases h
  | ok x1v =>
  rw [h3, exceptOk_bind] at h
  try simp only [] at h
  have hx1 := mexpE_rv_ok h3
  subst hx1
  rw [vmul_rv, vmul_rv] at h
  cases h4 : pyDiv (vmul (rv 0.62)
        (rv (rh / 100 *
          (0.6108 * Real.exp (17.27 * (ta + 273.15 - 273.15) /
            (ta + 273.15 - 273.15 + 237.3))))))
      (vsub (rv (p / 10)) (vmul (rv 0.38)
        (rv (rh / 100 *
          (0.6108 * Real.exp (17.27 * (ta + 273.15 - 273.15) /
            (ta + 273.15 - 273.15 + 237.3))))))) with
  | error e => rw [h4, exceptError_bind] at h; cases h
  | ok qa =>
  rw [h4, exceptOk_bind] at h
  try simp only [] at h
  rw [vmul_rv, vmul_rv, vsub_rv] at h4
  obtain ⟨hBq, hqa⟩ := pyDiv_rv_ok h4
  subst hqa
  cases h5 : pyDiv (rv (17.27 * (ts + 273.15 - 273.15)))
      (rv (ts + 273.15 - 273.15 + 237.3)) with
  | error e => rw [h5, exceptError_bind] at h; cases h
  | ok t2v =>
  rw [h5, exceptOk_bind] at h
  try simp only [] at h
  obtain ⟨hB2, ht2⟩ := pyDiv_rv_ok h5
  subst ht2
  cases h6 : mexpE (rv (17.27 * (ts + 273.15 - 273.15) /
      (ts + 273.15 - 273.15 + 237.3))) with
  | error e => rw [h6, exceptError_bind] at h; cases h
  | ok x2v =>
  rw [h6, exceptOk_bind] at h
  try simp only [] at h
  have hx2 := mexpE_rv_ok h6
  subst hx2
  rw [vmul_rv] at h
  cases h7 : pyDiv (vmul (rv 0.62)
        (rv (0.6108 * Real.exp (17.27 * (ts + 273.15 - 273.15) /
          (ts + 273.15 - 273.15 + 237.3)))))
      (vsub (rv (p / 10)) (vmul (rv 0.38)
        (rv (0.6108 * Real.exp (17.27 * (ts + 273.15 - 273.15) /
          (ts + 273.15 - 273.15 + 237.3)))))) with
  | error e => rw [h7, exceptError_bind] at h; cases h
  | ok qs =>
  rw [h7, exceptOk_bind] at h
  try simp only [] at h
  rw [vmul_rv, vmul_rv, vsub_rv] at h7
  obtain ⟨hBs, hqs⟩ := pyDiv_rv_ok h7
  subst hqs
  cases h8 : pyDiv (rv (p / 10 * 1000))
      (vmul (vmul (rv (ta + 273.15)) (rv 286.9))
        (vadd (rv 1) (vmul (rv 0.61)
          (rv (0.62 * (rh / 100 *
              (0.6108 * Real.exp (17.27 * (ta + 273.15 - 273.15) /
                (ta + 273.15 - 273.15 + 237.3)))) /
            (p / 10 - 0.38 * (rh / 100 *
              (0.6108 * Real.exp (17.27 * (ta + 273.15 - 273.15) /
                (ta + 273.15 - 273.15 + 237.3)))))))))) with
  | error e => rw [h8, exceptError_bind] at h; cases h
  | ok dens =>
  rw [h8, exceptOk_bind] at h
  try simp only [] at h
  cases h9 : pyDiv (rv (4.94e-8 * (ta + 273.15 - 273.15) + 1.7185e-5)) dens with
  | error e => rw [h9, exceptError_bind] at h; cases h
  | ok vv =>
  rw [h9, exceptOk_bind] at h
  simp only [exceptPure] at h
  cases h
  have hta : ta + 273.15 - 273.15 = ta := by ring
  have hts : ts + 273.15 - 273.15 = ts := by ring
  refine ⟨?_, ?_, ?_, ?_, ?_⟩ <;> simp only [hta, hts, vsub_rv] <;>
    simp only [tetens, qspec]

/-! ### Closed-form evaluation helpers -/

theorem pyDiv_rv (x : ℝ) {y : ℝ} (hy : y ≠ 0) :
    pyDiv (rv x) (rv y) = .ok (rv (x / y)) := by
  rw [rv_def, rv_def, pyDiv_some, if_neg (by exact_mod_cast hy)]
  simp [rv_def, ← Complex.ofReal_div]

theorem npDiv_rv (x : ℝ) {y : ℝ} (hy : y ≠ 0) :
    npDiv (rv x) (rv y) = rv (x / y) := by
  rw [rv_def, rv_def, npDiv_some_some, if_neg (by exact_mod_cast hy)]
  rw [rv_def, ← Complex.ofReal_div]

theorem npDiv_rv_zero (x : ℝ) : npDiv (rv x) (rv 0) = none := by
  rw [rv_def, rv_def, npDiv_some_some]
  simp

theorem mexpE_rv (x : ℝ) : mexpE (rv x) = .ok (rv (Real.exp x)) := by
  rw [rv_def, mexpE_some, if_pos (by simp)]
  simp [rv_def]

theorem mlogE_rv_pos {x : ℝ} (hx : 0 < x) : mlogE (rv x) = .ok (rv (Real.log x)) := by
  rw [rv_def, mlogE_some, if_pos (by simp), if_pos (by simpa using hx)]
  simp [rv_def]

theorem clogE_rv_pos {x : ℝ} (hx : 0 < x) : clogE (rv x) = .ok (rv (Real.log x)) := by
  rw [rv_def, clogE_some, if_neg (by exact_mod_cast hx.ne')]
  rw [rv_def, Complex.ofReal_log hx.le]

theorem emathLog_rv_pos {x : ℝ} (hx : 0 < x) : emathLog (rv x) = rv (Real.log x) := by
  rw [rv_def, emathLog_some, if_neg (by exact_mod_cast hx.ne')]
  rw [rv_def, Complex.ofReal_log hx.le]

theorem cexpV_rv (x : ℝ) : cexpV (rv x) = rv (Real.exp x) := by
  rw [rv_def, cexpV_some, rv_def, Complex.ofReal_exp]

theorem cpowV_rv_zero {e : ℝ} (he : e ≠ 0) : cpowV (rv 0) e = rv 0 := by
  rw [rv_def, cpowV_some]
  rw [show ((0:ℝ):ℂ) = 0 by norm_num, Complex.zero_cpow (by exact_mod_cast he)]

theorem eDeg_pos : 0 < eDeg := Real.exp_pos _

theorem eDeg_lt : eDeg < 7.39 := by
  have h2 : eDeg < Real.exp 2 := by
    apply Real.exp_lt_exp.mpr
    norm_num
  have h3 : Real.exp 2 = Real.exp 1 * Real.exp 1 := by
    rw [← Real.exp_add]
    norm_num
  have h4 : Real.exp 1 < 2.7182818286 := Real.exp_one_lt_d9
  have h5 : (0:ℝ) < Real.exp 1 := Real.exp_pos 1
  nlinarith

theorem qden_pos : 0 < 100 - 0.38 * (0.6108 * eDeg) := by
  nlinarith [eDeg_pos, eDeg_lt]

theorem qDeg_pos : 0 < qDeg := by
  unfold qDeg
  apply div_pos
  · nlinarith [eDeg_pos]
  · exact qden_pos

theorem dDeg_pos : 0 < dDeg := by
  unfold dDeg
  apply div_pos
  · norm_num
  · nlinarith [qDeg_pos]

theorem vDeg_pos : 0 < vDeg := by
  unfold vDeg
  apply div_pos
  · norm_num
  · exact dDeg_pos

theorem tvDeg_pos : 0 < tvDeg := by
  unfold tvDeg
  nlinarith [qDeg_pos]

theorem cpowV_rv_one (e : ℝ) : cpowV (rv 1) e = rv 1 := by
  rw [rv_def, cpowV_some]
  rw [show ((1:ℝ):ℂ) = 1 by norm_num, Complex.one_cpow]

theorem eDeg_def : Real.exp (345.4 / 257.3) = eDeg := rfl

theorem qDeg_def :
    0.62 * (0.6108 * eDeg) / (100 - 0.38 * (0.6108 * eDeg)) = qDeg := rfl

theorem dDeg_def : 100000 / (293.15 * 286.9 * (1 + 0.61 * qDeg)) = dDeg := rfl

theorem vDeg_def : (4.94e-8 * 20 + 1.7185e-5) / dDeg = vDeg := rfl

theorem tvDeg_def : 293.15 * (1 + qDeg * 0.61) = tvDeg := rfl

/-- The prologue at the degenerate reference input evaluates to `pcDeg`. -/
theorem prologue_eval : prologue 0 1000 20 20 100 2 = .ok pcDeg := by
  unfold prologue
  rw [pyDiv_rv 1000 (by norm_num : (1000:ℝ) ≠ 0), exceptOk_bind]
  try simp only []
  simp only [show (1000:ℝ)/1000 = 1 by norm_num,
    show (20:ℝ) + 273.15 = 293.15 by norm_num,
    show (293.15:ℝ) - 273.15 = 20 by norm_num,
    show (17.27:ℝ) * 20 = 345.4 by norm_num,
    show (20:ℝ) + 237.3 = 257.3 by norm_num]
  rw [pyDiv_rv 345.4 (by norm_num : (257.3:ℝ) ≠ 0), exceptOk_bind]
  try simp only []
  rw [mexpE_rv, exceptOk_bind]
  try simp only []
  simp only [eDeg_def, vmul_rv, vsub_rv, vadd_rv,
    show (100:ℝ)/100 = 1 by norm_num, one_mul,
    show (1000:ℝ)/10 = 100 by norm_num]
  rw [pyDiv_rv _ qden_pos.ne', exceptOk_bind]
  try simp only []
  simp only [qDeg_def, vmul_rv, vsub_rv, vadd_rv]
  rw [exceptOk_bind]
  try simp only []
  rw [mexpE_rv, exceptOk_bind]
  try simp only []
  simp only [eDeg_def, vmul_rv, vsub_rv, vadd_rv]
  rw [pyDiv_rv _ qden_pos.ne', exceptOk_bind]
  try simp only []
  simp only [qDeg_def, vmul_rv, vsub_rv, vadd_rv,
    show (100:ℝ) * 1000 = 100000 by norm_num]
  rw [pyDiv_rv 100000
    (by nlinarith [qDeg_pos] : (293.15:ℝ) * 286.9 * (1 + 0.61 * qDeg) ≠ 0),
    exceptOk_bind]
  try simp only []
  simp only [dDeg_def]
  rw [pyDiv_rv _ dDeg_pos.ne', exceptOk_bind]
  try simp only []
  simp only [vDeg_def, exceptPure]
  unfold pcDeg
  simp only [cpowV_rv_one, vmul_rv, mul_one, sub_self, tvDeg_def]

theorem log20000_pos : (0:ℝ) < Real.log 20000 := Real.log_pos (by norm_num)

theorem logRatio_pos : (0:ℝ) < Real.log (100000 / 37) := Real.log_pos (by norm_num)

/-- Stable pre-iteration at the degenerate input: wind 0 and equal
temperatures zero out the scaling quantities, so `L = 0/0` is non-finite. -/
theorem stableInitP_eval : stableInitP pcDeg = .ok stDeg0 := by
  unfold stableInitP
  try simp only [pcDeg]
  rw [npDiv_rv 2 (by norm_num : (0.0001:ℝ) ≠ 0)]
  rw [show (2:ℝ)/0.0001 = 20000 by norm_num]
  rw [clogE_rv_pos (by norm_num : (0:ℝ) < 20000), exceptOk_bind]
  try simp only []
  simp only [vmul_rv, vsub_rv, vadd_rv, K, sub_zero, sub_self, mul_zero, mul_one]
  rw [pyDiv_rv 0 log20000_pos.ne', exceptOk_bind]
  try simp only []
  simp only [zero_div, vmul_rv, mul_zero, zero_mul]
  rw [pyDiv_rv 0 vDeg_pos.ne', exceptOk_bind]
  try simp only []
  simp only [zero_div, cpowV_rv_zero (by norm_num : (0.25:ℝ) ≠ 0), vmul_rv,
    mul_zero, cexpV_rv, Real.exp_zero, mul_one,
    show (7.4:ℝ) * 0.0001 = 0.00074 by norm_num]
  rw [exceptOk_bind]
  try simp only []
  simp only [cpowV_rv_zero (by norm_num : (0.25:ℝ) ≠ 0), vmul_rv,
    mul_zero, cexpV_rv, Real.exp_zero, mul_one,
    show (7.4:ℝ) * 0.0001 = 0.00074 by norm_num]
  rw [pyDiv_rv 2 (by norm_num : (0.00074:ℝ) ≠ 0), exceptOk_bind]
  try simp only []
  rw [show (2:ℝ)/0.00074 = 100000/37 by norm_num]
  rw [clogE_rv_pos (by norm_num : (0:ℝ) < 100000/37), exceptOk_bind]
  try simp only []
  simp only [vsub_rv, sub_zero]
  rw [pyDiv_rv 0 logRatio_pos.ne', exceptOk_bind]
  try simp only []
  simp only [zero_div]
  rw [exceptOk_bind]
  try simp only []
  rw [clogE_rv_pos (by norm_num : (0:ℝ) < 100000/37), exceptOk_bind]
  try simp only []
  simp only [vsub_rv, sub_zero, npDiv_rv 0 logRatio_pos.ne', zero_div, g,
    vmul_rv, exceptPure]
  rw [show (0.41:ℝ) * (9.81 * 0) = 0 by norm_num, npDiv_rv_zero]
  unfold stDeg0
  simp only [vnan_def, mul_zero, zero_mul]

theorem tryE_okk {alpha sigma : Type} (v : alpha) (fb : sigma) :
    tryE (.ok v) fb = .ok v := rfl

theorem tryE_err {alpha sigma : Type} (e : PyErr) (fb : sigma) :
    tryE (Except.error e : Except PyErr alpha) fb = .error fb := rfl

theorem pyDiv_rv_zero (x : V) : pyDiv x (rv 0) = .error .zeroDiv := by
  rw [rv_def, pyDiv_some, if_pos (by norm_num)]

theorem realV_rv (x : ℝ) : realV (rv x) = rv x := by
  simp [rv_def, realV_some]

/-- First stable pass at the degenerate input. -/
theorem stableBodyDeg0 : stableBodyP pcDeg stDeg0 = .ok stDeg1 := by
  unfold stableBodyP
  try simp only [pcDeg, stDeg0]
  rw [npDiv_rv 2 (by norm_num : (0.0001:ℝ) ≠ 0),
    show (2:ℝ)/0.0001 = 20000 by norm_num]
  rw [clogE_rv_pos (by norm_num : (0:ℝ) < 20000), exceptOk_bind]
  try simp only []
  rw [npDiv_rv 2 (by norm_num : (0.00074:ℝ) ≠ 0),
    show (2:ℝ)/0.00074 = 100000/37 by norm_num]
  rw [clogE_rv_pos (by norm_num : (0:ℝ) < 100000/37), exceptOk_bind]
  try simp only []
  rw [exceptOk_bind]
  try simp only []
  simp only [vmul_rv, vsub_rv, vadd_rv, K, g, a, sub_zero, sub_self, mul_zero,
    zero_mul, mul_one, npDiv_rv 0 log20000_pos.ne',
    npDiv_rv 0 logRatio_pos.ne', zero_div,
    npDiv_rv 0 (by norm_num : (9.81:ℝ) ≠ 0),
    npDiv_none_right, npDiv_none_left, vmul_none_left, vmul_none_right,
    vadd_none_left, vadd_none_right, vsub_none_left, vsub_none_right,
    cpowV_none, cexpV_none, vnan_def, npDiv_rv_zero, exceptPure]
  unfold stDeg1
  simp only [vnan_def]

/-- Second stable pass at the degenerate input reaches the fixed point. -/
theorem stableBodyDeg1 : stableBodyP pcDeg stDeg1 = .ok stDeg2 := by
  unfold stableBodyP
  try simp only [pcDeg, stDeg1, vnan_def]
  simp only [npDiv_rv 2 (by norm_num : (0.00074:ℝ) ≠ 0),
    show (2:ℝ)/0.00074 = 100000/37 by norm_num,
    clogE_rv_pos (by norm_num : (0:ℝ) < 100000/37),
    npDiv_none_right, npDiv_none_left, clogE_none, exceptOk_bind,
    vmul_rv, vsub_rv, vadd_rv, K, g, a, sub_zero, sub_self, mul_zero,
    zero_mul, mul_one, npDiv_rv 0 logRatio_pos.ne', zero_div,
    npDiv_rv 0 (by norm_num : (9.81:ℝ) ≠ 0), npDiv_rv_zero,
    vmul_none_left, vmul_none_right, vadd_none_left, vadd_none_right,
    vsub_none_left, vsub_none_right, cpowV_none, cexpV_none, exceptPure]
  all_goals (unfold stDeg2; simp only [vnan_def])

/-- The stable fixed point at the degenerate input. -/
theorem stableBodyDeg2 : stableBodyP pcDeg stDeg2 = .ok stDeg2 := by
  unfold stableBodyP
  try simp only [pcDeg, stDeg2, vnan_def]
  simp only [npDiv_rv 2 (by norm_num : (0.00074:ℝ) ≠ 0),
    show (2:ℝ)/0.00074 = 100000/37 by norm_num,
    clogE_rv_pos (by norm_num : (0:ℝ) < 100000/37),
    npDiv_none_right, npDiv_none_left, clogE_none, exceptOk_bind,
    vmul_rv, vsub_rv, vadd_rv, K, g, a, sub_zero, sub_self, mul_zero,
    zero_mul, mul_one, npDiv_rv 0 logRatio_pos.ne', zero_div,
    npDiv_rv 0 (by norm_num : (9.81:ℝ) ≠ 0), npDiv_rv_zero,
    vmul_none_left, vmul_none_right, vadd_none_left, vadd_none_right,
    vsub_none_left, vsub_none_right, cpowV_none, cexpV_none, exceptPure]

/-- Unstable pre-iteration at the degenerate input gives the same state as
the stable one. -/
theorem unstableInitP_eval : unstableInitP pcDeg = .ok stDeg0 := by
  unfold unstableInitP
  try simp only [pcDeg]
  simp only [npDiv_rv 2 (by norm_num : (0.0001:ℝ) ≠ 0),
    show (2:ℝ)/0.0001 = 20000 by norm_num,
    mlogE_rv_pos (by norm_num : (0:ℝ) < 20000), exceptOk_bind,
    vmul_rv, vsub_rv, vadd_rv, K, sub_zero, sub_self, mul_zero, zero_mul,
    mul_one, pyDiv_rv 0 log20000_pos.ne', zero_div,
    pyDiv_rv 0 vDeg_pos.ne',
    cpowV_rv_zero (by norm_num : (0.25:ℝ) ≠ 0), mexpE_rv, Real.exp_zero,
    show (7.4:ℝ) * 0.0001 = 0.00074 by norm_num,
    pyDiv_rv 2 (by norm_num : (0.00074:ℝ) ≠ 0),
    show (2:ℝ)/0.00074 = 100000/37 by norm_num,
    mlogE_rv_pos (by norm_num : (0:ℝ) < 100000/37),
    pyDiv_rv 0 logRatio_pos.ne', g, npDiv_rv_zero, exceptPure]
  unfold stDeg0
  simp only [vnan_def]

/-- First unstable pass at the degenerate input. -/
theorem unstableBodyDeg0 : unstableBodyP pcDeg stDeg0 = .ok stDeg1 := by
  unfold unstableBodyP
  try simp only [pcDeg, stDeg0, vnan_def]
  simp only [npDiv_rv 2 (by norm_num : (0.0001:ℝ) ≠ 0),
    show (2:ℝ)/0.0001 = 20000 by norm_num,
    clogE_rv_pos (by norm_num : (0:ℝ) < 20000),
    npDiv_rv 2 (by norm_num : (0.00074:ℝ) ≠ 0),
    show (2:ℝ)/0.00074 = 100000/37 by norm_num,
    clogE_rv_pos (by norm_num : (0:ℝ) < 100000/37),
    tryE_okk, exceptOk_bind, clogE_none, catanE_none,
    vmul_rv, vsub_rv, vadd_rv, K, g, a, sub_zero, sub_self, mul_zero,
    zero_mul, mul_one, npDiv_rv 0 log20000_pos.ne',
    npDiv_rv 0 logRatio_pos.ne', zero_div,
    npDiv_rv 0 (by norm_num : (9.81:ℝ) ≠ 0), npDiv_rv_zero,
    npDiv_none_right, npDiv_none_left, vmul_none_left, vmul_none_right,
    vadd_none_left, vadd_none_right, vsub_none_left, vsub_none_right,
    cpowV_none, cexpV_none, exceptPure]
  unfold stDeg1
  simp only [vnan_def]

/-- Second unstable pass at the degenerate input reaches the fixed point. -/
theorem unstableBodyDeg1 : unstableBodyP pcDeg stDeg1 = .ok stDeg2 := by
  unfold unstableBodyP
  try simp only [pcDeg, stDeg1, vnan_def]
  simp only [npDiv_rv 2 (by norm_num : (0.00074:ℝ) ≠ 0),
    show (2:ℝ)/0.00074 = 100000/37 by norm_num,
    clogE_rv_pos (by norm_num : (0:ℝ) < 100000/37),
    tryE_okk, exceptOk_bind, clogE_none, catanE_none,
    vmul_rv, vsub_rv, vadd_rv, K, g, a, sub_zero, sub_self, mul_zero,
    zero_mul, mul_one, npDiv_rv 0 logRatio_pos.ne', zero_div,
    npDiv_rv 0 (by norm_num : (9.81:ℝ) ≠ 0), npDiv_rv_zero,
    npDiv_none_right, npDiv_none_left, vmul_none_left, vmul_none_right,
    vadd_none_left, vadd_none_right, vsub_none_left, vsub_none_right,
    cpowV_none, cexpV_none, exceptPure]
  all_goals (unfold stDeg2; simp only [vnan_def])

/-- The unstable fixed point at the degenerate input. -/
theorem unstableBodyDeg2 : unstableBodyP pcDeg stDeg2 = .ok stDeg2 := by
  unfold unstableBodyP
  try simp only [pcDeg, stDeg2, vnan_def]
  simp only [npDiv_rv 2 (by norm_num : (0.00074:ℝ) ≠ 0),
    show (2:ℝ)/0.00074 = 100000/37 by norm_num,
    clogE_rv_pos (by norm_num : (0:ℝ) < 100000/37),
    tryE_okk, exceptOk_bind, clogE_none, catanE_none,
    vmul_rv, vsub_rv, vadd_rv, K, g, a, sub_zero, sub_self, mul_zero,
    zero_mul, mul_one, npDiv_rv 0 logRatio_pos.ne', zero_div,
    npDiv_rv 0 (by norm_num : (9.81:ℝ) ≠ 0), npDiv_rv_zero,
    npDiv_none_right, npDiv_none_left, vmul_none_left, vmul_none_right,
    vadd_none_left, vadd_none_right, vsub_none_left, vsub_none_right,
    cpowV_none, cexpV_none, exceptPure]

/-- First neutral pass at the degenerate input. -/
theorem neutralBodyDeg0 : neutralBodyP pcDeg nDeg0 = .ok nDeg1 := by
  unfold neutralBodyP
  try simp only [pcDeg, nDeg0, vnan_def]
  simp only [npDiv_rv 2 (by norm_num : (0.0001:ℝ) ≠ 0),
    show (2:ℝ)/0.0001 = 20000 by norm_num,
    emathLog_rv_pos (by norm_num : (0:ℝ) < 20000),
    tryE_okk, exceptOk_bind, mexpE_none,
    vmul_rv, vsub_rv, vadd_rv, K, g, a, mul_zero, zero_mul, mul_one,
    npDiv_rv 0 log20000_pos.ne', zero_div,
    npDiv_rv 0 (by norm_num : (9.81:ℝ) ≠ 0), npDiv_rv_zero,
    npDiv_none_right, npDiv_none_left, vmul_none_left, vmul_none_right,
    vadd_none_left, vadd_none_right, npPowQ_none, emathLog_none, exceptPure]
  unfold nDeg1
  simp only [vnan_def]

/-- The neutral fixed point at the degenerate input. -/
theorem neutralBodyDeg1 : neutralBodyP pcDeg nDeg1 = .ok nDeg2 := by
  unfold neutralBodyP
  try simp only [pcDeg, nDeg1, vnan_def]
  simp only [tryE_okk, exceptOk_bind, mexpE_none,
    vmul_rv, vsub_rv, vadd_rv, K, g, a, mul_zero, zero_mul, mul_one,
    zero_div, npDiv_rv_zero,
    npDiv_none_right, npDiv_none_left, vmul_none_left, vmul_none_right,
    vadd_none_left, vadd_none_right, npPowQ_none, emathLog_none, exceptPure]
  all_goals (unfold nDeg2; simp only [vnan_def])

/-- The neutral fixed point stays fixed. -/
theorem neutralBodyDeg2 : neutralBodyP pcDeg nDeg2 = .ok nDeg2 := by
  unfold neutralBodyP
  try simp only [pcDeg, nDeg2, vnan_def]
  simp only [tryE_okk, exceptOk_bind, mexpE_none,
    vmul_rv, vsub_rv, vadd_rv, K, g, a, mul_zero, zero_mul, mul_one,
    zero_div, npDiv_rv_zero,
    npDiv_none_right, npDiv_none_left, vmul_none_left, vmul_none_right,
    vadd_none_left, vadd_none_right, npPowQ_none, emathLog_none, exceptPure]

/-- The 199 stable iterations at the degenerate input converge to the fixed
point after two passes. -/
theorem stableLoopDeg : runLoop199 (stableBodyP pcDeg) stDeg0 = .ok stDeg2 := by
  rw [runLoop199_eq_loopRecE]
  rw [show (199:Nat) = 198 + 1 from rfl, loopRecE_succ, stableBodyDeg0,
    exceptOk_bind]
  rw [show (198:Nat) = 197 + 1 from rfl, loopRecE_succ, stableBodyDeg1,
    exceptOk_bind]
  exact loopRecE_fixed _ _ stableBodyDeg2 197

/-- The first unstable pass at the degenerate input, under the float-power
semantics (the power base is already non-finite there, so the float and
complex powers agree). -/
theorem unstableBody1Deg0 : unstableBody1P pcDeg stDeg0 = .ok stDeg1 := by
  rw [unstableBody1P_eq_unstableBodyP
    (by simp [stDeg0, vnan_def, npDiv_none_right, vmul_none_right,
      vsub_none_right, npPowQ_none, cpowV_none])]
  exact unstableBodyDeg0

/-- The 199 unstable iterations at the degenerate input. -/
theorem unstableLoopDeg :
    unstableLoopP pcDeg stDeg0 = .ok stDeg2 := by
  unfold unstableLoopP
  rw [unstableBody1Deg0, exceptOk_bind, runLoopN_eq_loopRecE]
  rw [show (198:Nat) = 197 + 1 from rfl, loopRecE_succ, unstableBodyDeg1,
    exceptOk_bind]
  exact loopRecE_fixed _ _ unstableBodyDeg2 197

/-- The 199 neutral iterations at the degenerate input. -/
theorem neutralLoopDeg : runLoop199 (neutralBodyP pcDeg) nDeg0 = .ok nDeg2 := by
  rw [runLoop199_eq_loopRecE]
  rw [show (199:Nat) = 198 + 1 from rfl, loopRecE_succ, neutralBodyDeg0,
    exceptOk_bind]
  rw [show (198:Nat) = 197 + 1 from rfl, loopRecE_succ, neutralBodyDeg1,
    exceptOk_bind]
  exact loopRecE_fixed _ _ neutralBodyDeg2 197

/-- The stable candidate at the degenerate input is rejected (non-real `L`). -/
theorem ceStableDeg : ceStableC pcDeg stDeg2 = .ok vnan := by
  unfold ceStableC
  rw [if_neg (by simp [stDeg2, vnan_def, isrealV])]
  rfl

/-- The unstable candidate at the degenerate input is rejected. -/
theorem ceUnstableDeg : ceUnstableC pcDeg stDeg2 = .ok vnan := by
  unfold ceUnstableC
  rw [if_neg (by simp [stDeg2, vnan_def, isrealV])]
  rfl

/-- The neutral candidate at the degenerate input is non-finite. -/
theorem ceNeutralDeg : ceNeutralP pcDeg nDeg2 = vnan := by
  unfold ceNeutralP
  simp [nDeg2, vnan_def, npDiv_none_right, emathLog_none, vmul_none_left,
    vmul_none_right]

/-- The packaged implementation at the degenerate input returns a result:
`E = Ce = NaN` (all three candidates non-finite, neutral fallback selected),
`VPD = 0` (saturated air at equal temperatures) and `stability = 0`. -/
theorem singleCalcCoreDeg (d : String) :
    singleCalcCore d 0 1000 20 20 100 2 1800 =
      (.ok [vnan, vnan, rv 0, rv 0], []) := by
  unfold singleCalcCore
  rw [prologue_eval]
  try simp only []
  rw [stableInitP_eval]
  try simp only []
  rw [stableLoopDeg]
  try simp only []
  rw [ceStableDeg]
  try simp only []
  rw [unstableInitP_eval]
  try simp only []
  rw [unstableLoopDeg]
  try simp only []
  rw [ceUnstableDeg]
  try simp only []
  rw [show ({ u_f := stDeg2.u_f, zo := rv 0.0001, zoq := stDeg2.zoq } : NState)
      = nDeg0 from by simp [stDeg2, nDeg0, vnan_def]]
  rw [neutralLoopDeg]
  try simp only []
  rw [ceNeutralDeg]
  simp only [assignCe, isfiniteV, vnan_def, Bool.false_eq_true, if_false,
    vmul_none_left, vmul_none_right, realV_rv, pcDeg, List.append_nil,
    List.nil_append]

/-- The legacy stable pre-iteration at the degenerate input raises an
uncaught `ZeroDivisionError` at `L=(Tv*u_f**2)/(K*g*t_fv)` because equal air
and skin temperatures make `t_fv` exactly zero. -/
theorem stableInitL_deg : stableInitL pcDeg = .error .zeroDiv := by
  unfold stableInitL
  try simp only [pcDeg]
  simp only [npDiv_rv 2 (by norm_num : (0.0001:ℝ) ≠ 0),
    show (2:ℝ)/0.0001 = 20000 by norm_num,
    clogE_rv_pos (by norm_num : (0:ℝ) < 20000), exceptOk_bind,
    vmul_rv, vsub_rv, vadd_rv, K, sub_zero, sub_self, mul_zero, zero_mul,
    mul_one, pyDiv_rv 0 log20000_pos.ne', zero_div,
    pyDiv_rv 0 vDeg_pos.ne',
    cpowV_rv_zero (by norm_num : (0.25:ℝ) ≠ 0), cexpV_rv, Real.exp_zero,
    show (7.4:ℝ) * 0.0001 = 0.00074 by norm_num,
    pyDiv_rv 2 (by norm_num : (0.00074:ℝ) ≠ 0),
    show (2:ℝ)/0.00074 = 100000/37 by norm_num,
    clogE_rv_pos (by norm_num : (0:ℝ) < 100000/37),
    pyDiv_rv 0 logRatio_pos.ne', g,
    show (0.41:ℝ) * (9.81 * 0) = 0 by norm_num, pyDiv_rv_zero,
    exceptError_bind, exceptPure]

/-- The legacy unstable pre-iteration at the degenerate input also raises an
uncaught `ZeroDivisionError` at its `L` assignment (line 200), again because
equal air and skin temperatures make `t_fv` exactly zero. -/
theorem unstableInitL_deg : unstableInitL pcDeg = .error .zeroDiv := by
  unfold unstableInitL
  try simp only [pcDeg]
  simp only [npDiv_rv 2 (by norm_num : (0.0001:ℝ) ≠ 0),
    show (2:ℝ)/0.0001 = 20000 by norm_num,
    mlogE_rv_pos (by norm_num : (0:ℝ) < 20000), exceptOk_bind,
    vmul_rv, vsub_rv, vadd_rv, K, sub_zero, sub_self, mul_zero, zero_mul,
    mul_one, pyDiv_rv 0 log20000_pos.ne', zero_div,
    pyDiv_rv 0 vDeg_pos.ne',
    cpowV_rv_zero (by norm_num : (0.25:ℝ) ≠ 0), mexpE_rv, Real.exp_zero,
    show (7.4:ℝ) * 0.0001 = 0.00074 by norm_num,
    pyDiv_rv 2 (by norm_num : (0.00074:ℝ) ≠ 0),
    show (2:ℝ)/0.00074 = 100000/37 by norm_num,
    mlogE_rv_pos (by norm_num : (0:ℝ) < 100000/37),
    pyDiv_rv 0 logRatio_pos.ne', g,
    show (0.41:ℝ) * (9.81 * 0) = 0 by norm_num, pyDiv_rv_zero,
    exceptError_bind, exceptPure]

/-- The legacy implementation at the degenerate input propagates the
uncaught exception. -/
theorem aeroCoreDeg (d : String) :
    aeroCore d 0 1000 20 20 100 2 1800 = (.error .zeroDiv, []) := by
  unfold aeroCore
  rw [prologue_eval]
  try simp only []
  rw [stableInitL_deg]

/-- C6 counterexample: at the valid all-finite input `wind=0, pressure=1000,
T_air=T_skin=20, RH=100, sensor_height=2, timestep=1800` the legacy `aero`
raises an uncaught `ZeroDivisionError` (equal temperatures give `t_fv = 0`
and its scalar `/` divides by exactly zero at line 139), while
`Aero.single_calc` (which uses `np.divide` there) returns a four-component
result, so the two implementations do not return the same values. -/
theorem c6_counterexample :
    (aeroD "2020-01-01" (some 0) (some 1000) (some 20) (some 20) (some 100)
      (some 2) (some 1800)).1 = .error .zeroDiv ∧
    (singleCalcD "2020-01-01" (some 0) (some 1000) (some 20) (some 20)
      (some 100) (some 2) (some 1800)).1 = .ok [vnan, vnan, rv 0, rv 0] := by
  constructor
  · show (aeroCore "2020-01-01" 0 1000 20 20 100 2 1800).1 = .error .zeroDiv
    rw [aeroCoreDeg]
  · show (singleCalcCore "2020-01-01" 0 1000 20 20 100 2 1800).1 =
      .ok [vnan, vnan, rv 0, rv 0]
    rw [singleCalcCoreDeg]

/-! ### Lockstep refinement: legacy `aero` vs packaged `Aero.single_calc` -/

theorem pyDiv_bind_ok {alpha : Type} {x y : V} {k : V → Except PyErr alpha}
    {out : alpha} (h : (pyDiv x y >>= k) = .ok out) :
    k (npDiv x y) = .ok out := by
  cases hp : pyDiv x y with
  | error e => rw [hp, exceptError_bind] at h; cases h
  | ok v =>
      rw [hp, exceptOk_bind] at h
      rw [← pyDiv_ok_eq hp]
      exact h

theorem mlogE_bind_ok {alpha : Type} {x : V} {k : V → Except PyErr alpha}
    {out : alpha} (h : (mlogE x >>= k) = .ok out) :
    k (emathLog x) = .ok out := by
  cases hp : mlogE x with
  | error e => rw [hp, exceptError_bind] at h; cases h
  | ok v =>
      rw [hp, exceptOk_bind] at h
      rw [← mlogE_ok_eq hp]
      exact h

theorem npPowQ_eq_of_mexpE_ok {t m : V}
    (h : mexpE (vmul (rv (-2.25)) (cpowV t 0.25)) = .ok m) :
    npPowQ t 0.25 = cpowV t 0.25 := by
  cases t with
  | none => rfl
  | some c =>
      rw [npPowQ_some, cpowV_some]
      rw [if_neg ?hneg]
      rintro ⟨him, hre⟩
      have hc0 : c ≠ 0 := by
        intro h0
        rw [h0] at hre
        simp at hre
      have hpow : (c ^ ((0.25:ℝ):ℂ)).im ≠ 0 := by
        have hc : c = ((c.re : ℝ) : ℂ) := Complex.ext_iff.mpr ⟨rfl, by simpa using him⟩
        rw [Complex.cpow_def_of_ne_zero hc0]
        rw [Complex.exp_im]
        have harg : (Complex.log c).im = Real.pi := by
          rw [Complex.log_im, hc]
          exact Complex.arg_ofReal_of_neg (by simpa [← hc] using hre)
        have him2 : (Complex.log c * ((0.25:ℝ):ℂ)).im = Real.pi * 0.25 := by
          rw [Complex.mul_im, harg]
          simp
        rw [him2]
        have hsin : Real.sin (Real.pi * 0.25) = Real.sqrt 2 / 2 := by
          rw [show Real.pi * 0.25 = Real.pi / 4 by ring]
          exact Real.sin_pi_div_four
        rw [hsin]
        have h2 : (0:ℝ) < Real.sqrt 2 / 2 := by positivity
        positivity
      rw [cpowV_some] at h
      rw [rv_def, vmul_some_some, mexpE_some] at h
      rw [if_neg ?him3] at h
      · cases h
      · rw [Complex.mul_im]
        simp only [Complex.ofReal_re, Complex.ofReal_im, zero_mul, add_zero]
        intro hmul
        have : (c ^ ((0.25:ℝ):ℂ)).im = 0 := by
          have h225 : (-2.25 : ℝ) ≠ 0 := by norm_num
          exact (mul_eq_zero.mp hmul).resolve_left h225
        exact hpow this

/-- A fault-free legacy stable pre-iteration is reproduced exactly by the
packaged one (the only differences are `np.divide` in place of raising `/`
for `q_f` and `L`). -/
theorem stableInitLP {c : Consts} {s : SState} (h : stableInitL c = .ok s) :
    stableInitP c = .ok s := by
  unfold stableInitL at h
  unfold stableInitP
  try simp only [] at h ⊢
  cases h1 : clogE (npDiv (rv c.z) (rv 0.0001)) with
  | error e =>
      try simp only [h1] at h
      simp only [exceptError_bind] at h
      cases h
  | ok l1 =>
  try simp only [h1] at h
  try simp only [h1]
  simp only [exceptOk_bind] at h ⊢
  cases h2 : pyDiv (vmul (rv K) (vsub (rv c.wind) (rv 0))) (vsub l1 (rv 0)) with
  | error e =>
      try simp only [h2] at h
      simp only [exceptError_bind] at h
      cases h
  | ok u_f =>
  try simp only [h2] at h
  try simp only [h2]
  simp only [exceptOk_bind] at h ⊢
  cases h3 : pyDiv (vmul (rv 0.0001) u_f) c.v with
  | error e =>
      try simp only [h3] at h
      simp only [exceptError_bind] at h
      cases h
  | ok t1 =>
  try simp only [h3] at h
  try simp only [h3]
  simp only [exceptOk_bind] at h ⊢
  cases h4 : pyDiv (rv c.z)
      (vmul (rv 7.4) (vmul (rv 0.0001)
        (cexpV (vmul (rv (-2.25)) (cpowV t1 0.25))))) with
  | error e =>
      try simp only [h4] at h
      simp only [exceptError_bind] at h
      cases h
  | ok r2 =>
  try simp only [h4] at h
  try simp only [h4]
  simp only [exceptOk_bind] at h ⊢
  cases h5 : clogE r2 with
  | error e =>
      try simp only [h5] at h
      simp only [exceptError_bind] at h
      cases h
  | ok l2 =>
  try simp only [h5] at h
  try simp only [h5]
  simp only [exceptOk_bind] at h ⊢
  cases h6 : pyDiv (vmul (rv K) (vsub c.Tap c.Tsp)) (vsub l2 (rv 0)) with
  | error e =>
      try simp only [h6] at h
      simp only [exceptError_bind] at h
      cases h
  | ok t_fv =>
  try simp only [h6] at h
  try simp only [h6]
  simp only [exceptOk_bind] at h ⊢
  replace h := pyDiv_bind_ok h
  try simp only [] at h
  replace h := pyDiv_bind_ok h
  try simp only [] at h
  exact h

/-- A fault-free legacy unstable pre-iteration is reproduced exactly by the
packaged one. -/
theorem unstableInitLP {c : Consts} {s : SState} (h : unstableInitL c = .ok s) :
    unstableInitP c = .ok s := by
  unfold unstableInitL at h
  unfold unstableInitP
  try simp only [] at h ⊢
  cases h1 : mlogE (npDiv (rv c.z) (rv 0.0001)) with
  | error e =>
      try simp only [h1] at h
      simp only [exceptError_bind] at h
      cases h
  | ok m1 =>
  try simp only [h1] at h
  try simp only [h1]
  simp only [exceptOk_bind] at h ⊢
  cases h2 : pyDiv (vmul (rv K) (vsub (rv c.wind) (rv 0))) (vsub m1 (rv 0)) with
  | error e =>
      try simp only [h2] at h
      simp only [exceptError_bind] at h
      cases h
  | ok u_f =>
  try simp only [h2] at h
  try simp only [h2]
  simp only [exceptOk_bind] at h ⊢
  cases h3 : pyDiv (vmul (rv 0.0001) u_f) c.v with
  | error e =>
      try simp only [h3] at h
      simp only [exceptError_bind] at h
      cases h
  | ok t1 =>
  try simp only [h3] at h
  try simp only [h3]
  simp only [exceptOk_bind] at h ⊢
  cases h4 : mexpE (vmul (rv (-2.25)) (cpowV t1 0.25)) with
  | error e =>
      try simp only [h4] at h
      simp only [exceptError_bind] at h
      cases h
  | ok e1 =>
  try simp only [h4] at h
  try simp only [h4]
  simp only [exceptOk_bind] at h ⊢
  cases h5 : pyDiv (rv c.z) (vmul (rv 7.4) (vmul (rv 0.0001) e1)) with
  | error e =>
      try simp only [h5] at h
      simp only [exceptError_bind] at h
      cases h
  | ok r2 =>
  try simp only [h5] at h
  try simp only [h5]
  simp only [exceptOk_bind] at h ⊢
  cases h6 : mlogE r2 with
  | error e =>
      try simp only [h6] at h
      simp only [exceptError_bind] at h
      cases h
  | ok m2 =>
  try simp only [h6] at h
  try simp only [h6]
  simp only [exceptOk_bind] at h ⊢
  cases h7 : pyDiv (vmul (rv K) (vsub c.Tap c.Tsp)) (vsub m2 (rv 0)) with
  | error e =>
      try simp only [h7] at h
      simp only [exceptError_bind] at h
      cases h
  | ok t_fv =>
  try simp only [h7] at h
  try simp only [h7]
  simp only [exceptOk_bind] at h ⊢
  cases h8 : pyDiv (vmul (rv K) (vsub c.q_air c.q_sat)) (vsub m2 (rv 0)) with
  | error e =>
      try simp only [h8] at h
      simp only [exceptError_bind] at h
      cases h
  | ok q_f =>
  try simp only [h8] at h
  try simp only [h8]
  simp only [exceptOk_bind] at h ⊢
  replace h := pyDiv_bind_ok h
  try simp only [] at h
  exact h

/-- A fault-free legacy stable pass is reproduced exactly by the packaged
one. -/
theorem stableBodyLP {c : Consts} {st s : SState} (h : stableBodyL c st = .ok s) :
    stableBodyP c st = .ok s := by
  unfold stableBodyL at h
  unfold stableBodyP
  try simp only [] at h ⊢
  replace h := pyDiv_bind_ok h
  try simp only [] at h
  cases h1 : clogE (npDiv (rv c.z) st.zo) with
  | error e =>
      try simp only [h1] at h
      simp only [exceptError_bind] at h
      cases h
  | ok l1 =>
  try simp only [h1] at h
  try simp only [h1]
  simp only [exceptOk_bind] at h ⊢
  replace h := pyDiv_bind_ok h
  try simp only [] at h
  replace h := pyDiv_bind_ok h
  try simp only [] at h
  cases h2 : clogE (npDiv (rv c.z) st.zot) with
  | error e =>
      try simp only [h2] at h
      simp only [exceptError_bind] at h
      cases h
  | ok l2 =>
  try simp only [h2] at h
  try simp only [h2]
  simp only [exceptOk_bind] at h ⊢
  replace h := pyDiv_bind_ok h
  try simp only [] at h
  replace h := pyDiv_bind_ok h
  try simp only [] at h
  cases h3 : clogE (npDiv (rv c.z) st.zoq) with
  | error e =>
      try simp only [h3] at h
      simp only [exceptError_bind] at h
      cases h
  | ok l3 =>
  try simp only [h3] at h
  try simp only [h3]
  simp only [exceptOk_bind] at h ⊢
  replace h := pyDiv_bind_ok h
  try simp only [] at h
  replace h := pyDiv_bind_ok h
  try simp only [] at h
  replace h := pyDiv_bind_ok h
  try simp only [] at h
  replace h := pyDiv_bind_ok h
  try simp only [] at h
  replace h := pyDiv_bind_ok h
  try simp only [] at h
  exact h

/-- A fault-free second legacy stable pass is reproduced exactly by the
packaged one. -/
theorem stableBody2LP {c : Consts} {st s : SState}
    (h : stableBody2L c st = .ok s) : stableBodyP c st = .ok s := by
  unfold stableBody2L at h
  unfold stableBodyP
  try simp only [] at h ⊢
  replace h := pyDiv_bind_ok h
  try simp only [] at h
  cases h1 : clogE (npDiv (rv c.z) st.zo) with
  | error e =>
      try simp only [h1] at h
      simp only [exceptError_bind] at h
      cases h
  | ok l1 =>
  try simp only [h1] at h
  try simp only [h1]
  simp only [exceptOk_bind] at h ⊢
  replace h := pyDiv_bind_ok h
  try simp only [] at h
  cases h2 : clogE (npDiv (rv c.z) st.zot) with
  | error e =>
      try simp only [h2] at h
      simp only [exceptError_bind] at h
      cases h
  | ok l2 =>
  try simp only [h2] at h
  try simp only [h2]
  simp only [exceptOk_bind] at h ⊢
  replace h := pyDiv_bind_ok h
  try simp only [] at h
  replace h := pyDiv_bind_ok h
  try simp only [] at h
  cases h3 : clogE (npDiv (rv c.z) st.zoq) with
  | error e =>
      try simp only [h3] at h
      simp only [exceptError_bind] at h
      cases h
  | ok l3 =>
  try simp only [h3] at h
  try simp only [h3]
  simp only [exceptOk_bind] at h ⊢
  exact h

/-- A fault-free later legacy stable pass is reproduced exactly by the
packaged one. -/
theorem stableBody3LP {c : Consts} {st s : SState}
    (h : stableBody3L c st = .ok s) : stableBodyP c st = .ok s := by
  unfold stableBody3L at h
  unfold stableBodyP
  try simp only [] at h ⊢
  cases h1 : clogE (npDiv (rv c.z) st.zo) with
  | error e =>
      try simp only [h1] at h
      simp only [exceptError_bind] at h
      cases h
  | ok l1 =>
  try simp only [h1] at h
  try simp only [h1]
  simp only [exceptOk_bind] at h ⊢
  replace h := pyDiv_bind_ok h
  try simp only [] at h
  cases h2 : clogE (npDiv (rv c.z) st.zot) with
  | error e =>
      try simp only [h2] at h
      simp only [exceptError_bind] at h
      cases h
  | ok l2 =>
  try simp only [h2] at h
  try simp only [h2]
  simp only [exceptOk_bind] at h ⊢
  replace h := pyDiv_bind_ok h
  try simp only [] at h
  cases h3 : clogE (npDiv (rv c.z) st.zoq) with
  | error e =>
      try simp only [h3] at h
      simp only [exceptError_bind] at h
      cases h
  | ok l3 =>
  try simp only [h3] at h
  try simp only [h3]
  simp only [exceptOk_bind] at h ⊢
  exact h

/-- A fault-free legacy stable loop (pass 1, pass 2, then 197 later passes)
is reproduced exactly by 199 packaged passes. -/
theorem stableLoopLP {c : Consts} {s0 s : SState}
    (h : stableLoopL c s0 = .ok s) : runLoop199 (stableBodyP c) s0 = .ok s := by
  unfold stableLoopL at h
  cases h1 : stableBodyL c s0 with
  | error e => rw [h1, exceptError_bind] at h; cases h
  | ok s1 =>
  rw [h1, exceptOk_bind] at h
  try simp only [] at h
  cases h2 : stableBody2L c s1 with
  | error e => rw [h2, exceptError_bind] at h; cases h
  | ok s2 =>
  rw [h2, exceptOk_bind] at h
  rw [runLoopN_eq_loopRecE] at h
  rw [runLoop199_eq_loopRecE]
  rw [show (199:Nat) = 198 + 1 from rfl, loopRecE_succ, stableBodyLP h1,
    exceptOk_bind]
  rw [show (198:Nat) = 197 + 1 from rfl, loopRecE_succ, stableBody2LP h2,
    exceptOk_bind]
  exact loopRecE_lockstep (fun a b hab => stableBody3LP hab) 197 s2 s h

/-- A fault-free legacy unstable pass is reproduced exactly by the packaged
one. -/
theorem unstableBodyLP {c : Consts} {st s : SState}
    (h : unstableBodyL c st = .ok s) : unstableBodyP c st = .ok s := by
  unfold unstableBodyL at h
  unfold unstableBodyP
  try simp only [] at h ⊢
  replace h := pyDiv_bind_ok h
  try simp only [] at h
  cases h1 : clogE (npDiv (rv c.z) st.zo) with
  | error e =>
      try simp only [h1] at h
      simp only [exceptError_bind] at h
      cases h
  | ok l1 =>
  try simp only [h1] at h
  try simp only [h1, tryE_okk]
  simp only [exceptOk_bind] at h ⊢
  replace h := pyDiv_bind_ok h
  try simp only [] at h
  replace h := pyDiv_bind_ok h
  try simp only [] at h
  cases h2 : clogE (npDiv (rv c.z) st.zot) with
  | error e =>
      try simp only [h2] at h
      simp only [exceptError_bind] at h
      cases h
  | ok l2 =>
  try simp only [h2] at h
  try simp only [h2, tryE_okk]
  simp only [exceptOk_bind] at h ⊢
  replace h := pyDiv_bind_ok h
  try simp only [] at h
  replace h := pyDiv_bind_ok h
  try simp only [] at h
  cases h3 : clogE (npDiv (rv c.z) st.zoq) with
  | error e =>
      try simp only [h3] at h
      simp only [exceptError_bind] at h
      cases h
  | ok l3 =>
  try simp only [h3] at h
  try simp only [h3, tryE_okk]
  simp only [exceptOk_bind] at h ⊢
  replace h := pyDiv_bind_ok h
  try simp only [] at h
  replace h := pyDiv_bind_ok h
  try simp only [] at h
  revert h
  generalize hX : cpowV (vsub (rv 1) (vmul (rv 16) (npDiv (rv c.z) st.L))) 0.25 = X
  intro h
  cases h4 : clogE (npDiv (vadd (rv 1) X) (rv 2)) with
  | error e =>
      try simp only [h4] at h
      simp only [exceptError_bind] at h
      cases h
  | ok m1 =>
  try simp only [h4] at h
  try simp only [h4, tryE_okk]
  simp only [exceptOk_bind] at h ⊢
  cases h5 : clogE (npDiv (vadd (rv 1) (vmul X X)) (rv 2)) with
  | error e =>
      try simp only [h5] at h
      simp only [exceptError_bind] at h
      cases h
  | ok m2 =>
  try simp only [h5] at h
  try simp only [h5, tryE_okk]
  simp only [exceptOk_bind] at h ⊢
  cases h6 : catanE X with
  | error e =>
      try simp only [h6] at h
      simp only [exceptError_bind] at h
      cases h
  | ok m3 =>
  try simp only [h6] at h
  try simp only [h6, tryE_okk]
  simp only [exceptOk_bind] at h ⊢
  replace h := pyDiv_bind_ok h
  try simp only [] at h
  replace h := pyDiv_bind_ok h
  try simp only [] at h
  replace h := pyDiv_bind_ok h
  try simp only [] at h
  replace h := pyDiv_bind_ok h
  try simp only [] at h
  simp only [exceptPure, Except.ok.injEq] at h ⊢
  exact h

/-- A fault-free legacy unstable loop is reproduced exactly by the packaged
split loop, provided the float power and the complex power agree on the
first pass's base `1-16*(z/L)` (they differ exactly when that base is a
negative real, where the packaged numpy power yields NaN but the legacy
pure-Python power yields a complex root). -/
theorem unstableLoopLP {c : Consts} {u0 u : SState}
    (hx : npPowQ (vsub (rv 1) (vmul (rv 16) (npDiv (rv c.z) u0.L))) 0.25 =
      cpowV (vsub (rv 1) (vmul (rv 16) (npDiv (rv c.z) u0.L))) 0.25)
    (h : runLoop199 (unstableBodyL c) u0 = .ok u) :
    unstableLoopP c u0 = .ok u := by
  rw [runLoop199_eq_loopRecE, show (199:Nat) = 198 + 1 from rfl,
    loopRecE_succ] at h
  cases h1 : unstableBodyL c u0 with
  | error e => rw [h1, exceptError_bind] at h; cases h
  | ok u1 =>
  rw [h1, exceptOk_bind] at h
  unfold unstableLoopP
  rw [unstableBody1P_eq_unstableBodyP hx, unstableBodyLP h1, exceptOk_bind,
    runLoopN_eq_loopRecE]
  exact loopRecE_lockstep (fun a b hab => unstableBodyLP hab) 198 u1 u h

/-- A fault-free legacy neutral pass is reproduced exactly by the packaged
one (`np.emath.log` in place of `math.log` and numpy `**` in place of the
float `**`, which agree whenever `math.exp` accepted the argument). -/
theorem neutralBodyLP {c : Consts} {st s : NState} (h : neutralBodyL c st = .ok s) :
    neutralBodyP c st = .ok s := by
  unfold neutralBodyL at h
  unfold neutralBodyP
  try simp only [] at h ⊢
  replace h := pyDiv_bind_ok h
  try simp only [] at h
  replace h := mlogE_bind_ok h
  try simp only [] at h
  replace h := pyDiv_bind_ok h
  try simp only [] at h
  replace h := pyDiv_bind_ok h
  try simp only [] at h
  replace h := pyDiv_bind_ok h
  try simp only [] at h
  replace h := pyDiv_bind_ok h
  try simp only [] at h
  cases hm : mexpE (vmul (rv (-2.25))
      (cpowV (npDiv (vmul (vadd (npDiv (vmul (rv a)
        (vmul (npDiv (vmul (rv K) (rv c.wind)) (emathLog (npDiv (rv c.z) st.zo)))
          (npDiv (vmul (rv K) (rv c.wind)) (emathLog (npDiv (rv c.z) st.zo))))) (rv g))
        (npDiv (vmul (rv 0.11) c.v)
          (npDiv (vmul (rv K) (rv c.wind)) (emathLog (npDiv (rv c.z) st.zo)))))
        (npDiv (vmul (rv K) (rv c.wind)) (emathLog (npDiv (rv c.z) st.zo)))) c.v)
      0.25)) with
  | error e =>
      try simp only [hm] at h
      simp only [exceptError_bind] at h
      cases h
  | ok m2 =>
  try simp only [hm] at h
  simp only [exceptOk_bind] at h
  rw [npPowQ_eq_of_mexpE_ok hm]
  try simp only [hm, tryE_okk]
  simp only [exceptOk_bind]
  simp only [exceptPure, Except.ok.injEq] at h ⊢
  exact h

/-- A fault-free legacy neutral candidate is the packaged one. -/
theorem ceNeutralLP {c : Consts} {st : NState} {v : V}
    (h : ceNeutralL c st = .ok v) : ceNeutralP c st = v := by
  unfold ceNeutralL at h
  unfold ceNeutralP
  replace h := pyDiv_bind_ok h
  try simp only [] at h
  replace h := mlogE_bind_ok h
  try simp only [] at h
  replace h := pyDiv_bind_ok h
  try simp only [] at h
  replace h := mlogE_bind_ok h
  try simp only [] at h
  exact (pyDiv_ok_eq h).symm

/-- The coefficient selected by the packaged cascade is the legacy cascade
value; the packaged version merely adds the stability output. -/
theorem assignCe_fst (ceS ceU ceN stabS stabU : V) :
    (assignCe ceS ceU ceN stabS stabU).1 = legacyCascade ceS ceU ceN := by
  unfold assignCe legacyCascade
  by_cases hS : isfiniteV ceS
  · rw [if_pos hS, if_pos hS]
  · rw [if_neg hS, if_neg hS]
    by_cases hU : isfiniteV ceU
    · rw [if_pos hU, if_pos hU]
    · rw [if_neg hU, if_neg hU]

/-- Multiplying by two real scalars on the right commutes (NaN propagation
included). -/
theorem vmul_rv_right_comm (x : V) (r s : ℝ) :
    vmul (vmul x (rv r)) (rv s) = vmul (vmul x (rv s)) (rv r) := by
  cases x with
  | none => rfl
  | some v =>
      simp only [rv, vmul]
      congr 1
      ring

/-- C7 witness at the reference input. -/
theorem c7_witness :
    prologue 0 1000 20 20 100 2 = .ok pcDeg ∧
    (pcDeg.e_sat = rv (tetens 20) ∧
     pcDeg.e_air = rv (100 / 100 * tetens 20) ∧
     pcDeg.q_sat = rv (qspec 1000 (tetens 20)) ∧
     pcDeg.q_air = rv (qspec 1000 (100 / 100 * tetens 20)) ∧
     pcDeg.VPD = rv (tetens 20 - 100 / 100 * tetens 20)) :=
  ⟨prologue_eval, c7_derived_formulas 0 1000 20 20 100 2 pcDeg prologue_eval⟩

/-- C8: on every input whose prologue completes, the first returned output is
`E = density_air * Ce * (q_sat - q_air) * wind * timestep` with `Ce` the
selected coefficient (second output), and the timestep is a raw multiplier:
re-running with another timestep leaves Ce, VPD and stability unchanged and
scales E linearly. -/
theorem c8_evaporation_is_product {w p ta ts rh z : ℝ} {pc : Consts}
    (hpc : prologue w p ta ts rh z = .ok pc) (d : String) (dt dtAlt : ℝ) :
    EIsProduct pc dt ((singleCalcD d (some w) (some p) (some ta) (some ts)
        (some rh) (some z) (some dt)).1) ∧
    ScaleOK dt dtAlt
      ((singleCalcD d (some w) (some p) (some ta) (some ts) (some rh) (some z)
        (some dt)).1)
      ((singleCalcD d (some w) (some p) (some ta) (some ts) (some rh) (some z)
        (some dtAlt)).1) := by
  have h1 : (singleCalcD d (some w) (some p) (some ta) (some ts) (some rh)
      (some z) (some dt)).1 = (singleCalcCore d w p ta ts rh z dt).1 := rfl
  have h2 : (singleCalcD d (some w) (some p) (some ta) (some ts) (some rh)
      (some z) (some dtAlt)).1 = (singleCalcCore d w p ta ts rh z dtAlt).1 := rfl
  rw [h1, h2]
  unfold singleCalcCore
  rw [hpc]
  try simp only []
  cases stableInitP pc with
  | error e => exact ⟨True.intro, rfl⟩
  | ok s0 =>
  try simp only []
  cases runLoop199 (stableBodyP pc) s0 with
  | error pe =>
      try simp only []
      constructor
      · show vnan = vmul (vmul (vmul (vmul pc.density vnan)
            (vsub pc.q_sat pc.q_air)) (rv pc.wind)) (rv dt)
        rw [vnan_def, vmul_none_right, vmul_none_left, vmul_none_left,
          vmul_none_left]
      · exact ⟨rfl, rfl, rfl⟩
  | ok s =>
  try simp only []
  cases ceStableC pc s with
  | error e => exact ⟨True.intro, rfl⟩
  | ok ceS =>
  try simp only []
  cases unstableInitP pc with
  | error e => exact ⟨True.intro, rfl⟩
  | ok u0 =>
  try simp only []
  cases unstableLoopP pc u0 with
  | error pu =>
      try simp only []
      cases ceUnstableC pc pu with
      | error e => exact ⟨True.intro, rfl⟩
      | ok ceU =>
          try simp only []
          cases runLoop199 (neutralBodyP pc)
            { u_f := pu.u_f, zo := rv 0.0001, zoq := pu.zoq } with
          | error pn =>
              try simp only []
              exact ⟨rfl, rfl, rfl, rfl, vmul_rv_right_comm _ dt dtAlt⟩
          | ok n =>
              try simp only []
              exact ⟨rfl, rfl, rfl, rfl, vmul_rv_right_comm _ dt dtAlt⟩
  | ok u =>
      try simp only []
      cases ceUnstableC pc u with
      | error e => exact ⟨True.intro, rfl⟩
      | ok ceU =>
          try simp only []
          cases runLoop199 (neutralBodyP pc)
            { u_f := u.u_f, zo := rv 0.0001, zoq := u.zoq } with
          | error pn =>
              try simp only []
              exact ⟨rfl, rfl, rfl, rfl, vmul_rv_right_comm _ dt dtAlt⟩
          | ok n =>
              try simp only []
              exact ⟨rfl, rfl, rfl, rfl, vmul_rv_right_comm _ dt dtAlt⟩

/-- C8 witness at the reference input, with timesteps 1800 and 3600. -/
theorem c8_witness :
    prologue 0 1000 20 20 100 2 = .ok pcDeg ∧
    (EIsProduct pcDeg 1800 ((singleCalcD "2020-01-01" (some 0) (some 1000)
        (some 20) (some 20) (some 100) (some 2) (some 1800)).1) ∧
     ScaleOK 1800 3600
       ((singleCalcD "2020-01-01" (some 0) (some 1000) (some 20) (some 20)
         (some 100) (some 2) (some 1800)).1)
       ((singleCalcD "2020-01-01" (some 0) (some 1000) (some 20) (some 20)
         (some 100) (some 2) (some 3600)).1)) :=
  ⟨prologue_eval, c8_evaporation_is_product prologue_eval "2020-01-01" 1800 3600⟩

/-- C6 (amended): on any all-finite input on which the legacy `aero` raises
no arithmetic fault anywhere (caught or not) and whose unstable first-pass
power base `1-16*(z/L)` is not a negative real number (there the two
programs genuinely diverge: the packaged code's numpy float `**` turns its
unstable chain to NaN while the legacy pure-Python `**` yields a complex
root), `Aero.single_calc` returns the same E, Ce and VPD as its first three
outputs.  (The unamended claim is refuted by `c6_counterexample`: at
`T_air = T_skin` the legacy scalar `/` raises `ZeroDivisionError` on
`t_fv = 0` while the packaged `np.divide` continues and returns.) -/
theorem c6_legacy_packaged_agree (d : String) (w p ta ts rh z dt : ℝ)
    (pc : Consts) (hpc : prologue w p ta ts rh z = .ok pc)
    (hbase : ∀ u0 : SState, unstableInitL pc = .ok u0 →
      npPowQ (vsub (rv 1) (vmul (rv 16) (npDiv (rv pc.z) u0.L))) 0.25 =
        cpowV (vsub (rv 1) (vmul (rv 16) (npDiv (rv pc.z) u0.L))) 0.25) :
    agreeEVPD (aeroCoreNF w p ta ts rh z dt)
      (singleCalcD d (some w) (some p) (some ta) (some ts) (some rh) (some z)
        (some dt)).1 := by
  have hD : (singleCalcD d (some w) (some p) (some ta) (some ts) (some rh)
      (some z) (some dt)).1 = (singleCalcCore d w p ta ts rh z dt).1 := rfl
  rw [hD]
  unfold aeroCoreNF singleCalcCore
  rw [hpc]
  simp only [exceptOk_bind]
  try simp only []
  cases hs0 : stableInitL pc with
  | error e => simp only [exceptError_bind]; exact trivial
  | ok s0 =>
  simp only [exceptOk_bind]
  rw [stableInitLP hs0]
  try simp only []
  cases hsl : stableLoopL pc s0 with
  | error e => simp only [exceptError_bind]; exact trivial
  | ok s =>
  simp only [exceptOk_bind]
  rw [stableLoopLP hsl]
  try simp only []
  cases hceS : ceStableC pc s with
  | error e => simp only [exceptError_bind]; exact trivial
  | ok ceS =>
  simp only [exceptOk_bind]
  try simp only []
  cases hu0 : unstableInitL pc with
  | error e => simp only [exceptError_bind]; exact trivial
  | ok u0 =>
  simp only [exceptOk_bind]
  rw [unstableInitLP hu0]
  try simp only []
  cases hul : runLoop199 (unstableBodyL pc) u0 with
  | error e => simp only [exceptError_bind]; exact trivial
  | ok u =>
  simp only [exceptOk_bind]
  rw [unstableLoopLP (hbase u0 hu0) hul]
  try simp only []
  cases hceU : ceUnstableC pc u with
  | error e => simp only [exceptError_bind]; exact trivial
  | ok ceU =>
  simp only [exceptOk_bind]
  try simp only []
  cases hnl : runLoop199 (neutralBodyL pc)
      { u_f := u.u_f, zo := rv 0.0001, zoq := u.zoq } with
  | error e => simp only [exceptError_bind]; exact trivial
  | ok n =>
  simp only [exceptOk_bind]
  have hnlP : runLoop199 (neutralBodyP pc)
      { u_f := u.u_f, zo := rv 0.0001, zoq := u.zoq } = .ok n := by
    rw [runLoop199_eq_loopRecE]
    rw [runLoop199_eq_loopRecE] at hnl
    exact loopRecE_lockstep (fun a b hab => neutralBodyLP hab) 199 _ n hnl
  rw [hnlP]
  try simp only []
  cases hceN : ceNeutralL pc n with
  | error e => simp only [exceptError_bind]; exact trivial
  | ok ceN =>
  simp only [exceptOk_bind]
  rw [ceNeutralLP hceN]
  try simp only []
  simp only [exceptPure]
  refine ⟨_, rfl, ?_⟩
  simp only [List.take, assignCe_fst]

/-- C6 witness at the reference input: the prologue hypothesis is discharged
by its evaluation and the power-base hypothesis holds because the legacy
unstable initialization already raises there. -/
theorem c6_witness :
    prologue 0 1000 20 20 100 2 = .ok pcDeg ∧
    agreeEVPD (aeroCoreNF 0 1000 20 20 100 2 1800)
      (singleCalcD "2020-01-01" (some 0) (some 1000) (some 20) (some 20)
        (some 100) (some 2) (some 1800)).1 :=
  ⟨prologue_eval,
    c6_legacy_packaged_agree "2020-01-01" 0 1000 20 20 100 2 1800 pcDeg
      prologue_eval
      (fun u0 h => by rw [unstableInitL_deg] at h; exact Except.noConfusion h)⟩

end AeroEvap
